import Mathlib

/-!
Shallow embedding of the iTIP snapshot extractor
(`crates/groupware/src/scheduling/snapshot.rs`, function `itip_snapshot`).

The iCalendar data types and their typed projections come from the external
`calcard` parser; they are embedded following the input contract of spec §6.
Raw partial date-times are abstract tokens whose conversions
(`to_date_time_with_tz`, `to_timestamp`) and the document time-zone resolver
are supplied by a `CalcardEnv` record, so that every behaviour allowed by the
contract is an instance.  Pieces of the groupware scheduling module that are
declared outside the surveyed source (`Email::new`, `Email::from_uri`, the
equality used for `InstanceId` map keys, the attendee set) are modelled from
the spec and carry a doc comment saying so.
-/

namespace MailServer

/-- Abstract raw partial date-time of the calcard parser (spec §6).  Its
conversions live in `CalcardEnv`; the token itself only has identity. -/
structure PartialDateTime where
  id : Nat
deriving DecidableEq

/-- calcard URI values as used by the snapshot code: a location URI or a
calendar-user address of Email form (spec §4.A, §4.C). -/
inductive Uri where
  | location : String → Uri
  | mail : String → Uri
deriving DecidableEq

/-- calcard `ICalendarScheduleAgentValue` (RFC 6638 SCHEDULE-AGENT). -/
inductive ICalendarScheduleAgentValue where
  | server
  | client
  | none_
deriving DecidableEq

/-- calcard `ICalendarScheduleForceSendValue` (RFC 6638 SCHEDULE-FORCE-SEND). -/
inductive ICalendarScheduleForceSendValue where
  | request
  | reply
deriving DecidableEq

/-- calcard `ICalendarParameter`, restricted to the constructors the snapshot
code inspects; every other parameter is `other` (spec §6).  PARTSTAT, CUTYPE
and ROLE payloads are abstract tokens: the code only stores them. -/
inductive ICalendarParameter where
  | scheduleAgent : ICalendarScheduleAgentValue → ICalendarParameter
  | scheduleForceSend : ICalendarScheduleForceSendValue → ICalendarParameter
  | rsvp : Bool → ICalendarParameter
  | partstat : Nat → ICalendarParameter
  | cutype : Nat → ICalendarParameter
  | delegatedFrom : List Uri → ICalendarParameter
  | delegatedTo : List Uri → ICalendarParameter
  | role : Nat → ICalendarParameter
  | sentBy : Uri → ICalendarParameter
  | tzid : String → ICalendarParameter
  | range
  | other : Nat → ICalendarParameter
deriving DecidableEq

/-- calcard `ICalendarProperty`, restricted to the names the snapshot code
matches on; every other property is `other` (spec §6). -/
inductive ICalendarProperty where
  | organizer
  | attendee
  | uid
  | sequence
  | recurrenceId
  | requestStatus
  | dtstamp
  | dtstart
  | dtend
  | duration
  | due
  | rrule
  | rdate
  | exdate
  | status
  | location
  | summary
  | description
  | priority
  | percentComplete
  | completed
  | other : Nat → ICalendarProperty
deriving DecidableEq

/-- calcard `ICalendarValue`, reduced to the constructors the snapshot code
distinguishes (spec §4.C); duration / rrule / period / status payloads are
abstract tokens since the code only moves them. -/
inductive ICalendarValue where
  | text : String → ICalendarValue
  | integer : Int → ICalendarValue
  | pdt : PartialDateTime → ICalendarValue
  | uri : Uri → ICalendarValue
  | duration : Nat → ICalendarValue
  | recurrenceRule : Nat → ICalendarValue
  | period : Nat → ICalendarValue
  | status : Nat → ICalendarValue
  | other : Nat → ICalendarValue
deriving DecidableEq

/-- Typed projection `as_text` of the §6 input contract. -/
def ICalendarValue.asText : ICalendarValue → Option String
  | .text s => some s
  | _ => none

/-- Typed projection `as_integer` of the §6 input contract. -/
def ICalendarValue.asInteger : ICalendarValue → Option Int
  | .integer i => some i
  | _ => none

/-- Typed projection `as_partial_date_time` of the §6 input contract. -/
def ICalendarValue.asPdt : ICalendarValue → Option PartialDateTime
  | .pdt d => some d
  | _ => none

/-- One property line of a component: name, parameters, values (spec §6). -/
structure ICalendarEntry where
  name : ICalendarProperty
  params : List ICalendarParameter
  values : List ICalendarValue
deriving DecidableEq

/-- `entry.tz_id()` of the §6 input contract: the TZID parameter, if any. -/
def ICalendarEntry.tzId (e : ICalendarEntry) : Option String :=
  e.params.findSome? fun p =>
    match p with
    | .tzid s => some s
    | _ => none

/-- calcard `ICalendarComponentType`, reduced to the kinds the scheduling
code distinguishes. -/
inductive ICalendarComponentType where
  | vcalendar
  | vevent
  | vtodo
  | vjournal
  | vfreebusy
  | vtimezone
  | valarm
  | other : Nat → ICalendarComponentType
deriving DecidableEq

/-- Modelled from the spec §4.F: the parser's notion of a scheduling object
is VEVENT / VTODO / VJOURNAL / VFREEBUSY (`is_scheduling_object` lives in the
external calcard crate). -/
def ICalendarComponentType.is_scheduling_object : ICalendarComponentType → Bool
  | .vevent => true
  | .vtodo => true
  | .vjournal => true
  | .vfreebusy => true
  | _ => false

/-- One calendar component: its kind and its ordered entries (spec §6). -/
structure ICalendarComponent where
  component_type : ICalendarComponentType
  entries : List ICalendarEntry
deriving DecidableEq

/-- A parsed calendar: an ordered sequence of components (spec §6). -/
structure ICalendar where
  components : List ICalendarComponent
deriving DecidableEq

/-- Environment supplied by the external calcard crate (spec §4.B and §6):
the document's time-zone resolver (`resolve`, handles are abstract `Nat`),
the zoned conversion `to_date_time_with_tz` already composed with
`.timestamp()`, and the floating fallback `to_timestamp`.  The resolver is
pure relative to the document, so the source's lazy `get_or_insert_with`
construction coincides with using it directly. -/
structure CalcardEnv where
  resolve : Option String → Nat
  to_date_time_with_tz : PartialDateTime → Nat → Option Int
  to_timestamp : PartialDateTime → Option Int

/-- `Email` of the scheduling data model (spec §3). -/
structure Email where
  email : String
  is_local : Bool
deriving DecidableEq

/-- ASCII whitespace, for the character-level trim below. -/
def asciiWhitespace (c : Char) : Bool :=
  decide (c = ' ') || decide (c = '\t') || decide (c = '\n') || decide (c = '\r')

/-- Drop leading whitespace from a character list. -/
def dropWhileSpace : List Char → List Char
  | [] => []
  | c :: cs => if asciiWhitespace c then dropWhileSpace cs else c :: cs

/-- Trim both ends of a character list. -/
def trimChars (l : List Char) : List Char :=
  (dropWhileSpace (dropWhileSpace l).reverse).reverse

/-- `str::trim` on the embedding's strings, implemented over the character
list (the embedding's inputs use ASCII whitespace). -/
def strTrim (s : String) : String := ⟨trimChars s.data⟩

/-- ASCII lower-casing of one character. -/
def lowerChar (c : Char) : Char :=
  if c.toNat ≥ 65 ∧ c.toNat ≤ 90 then Char.ofNat (c.toNat + 32) else c

/-- Strip a leading case-insensitive `mailto:` from a character list. -/
def stripMailtoChars (l : List Char) : List Char :=
  match l with
  | c1 :: c2 :: c3 :: c4 :: c5 :: c6 :: c7 :: rest =>
    if lowerChar c1 = 'm' ∧ lowerChar c2 = 'a' ∧ lowerChar c3 = 'i' ∧
        lowerChar c4 = 'l' ∧ lowerChar c5 = 't' ∧ lowerChar c6 = 'o' ∧
        c7 = ':' then rest
    else l
  | _ => l

/-- Modelled from the spec §4.A (the `Email` classifier lives in
`scheduling/mod.rs`, which is not part of the surveyed source): trim, strip a
leading case-insensitive `mailto:`, trim, lower-case; empty input is
rejected. -/
def normalizeAddr (s : String) : String :=
  ⟨(trimChars (stripMailtoChars (trimChars s.data))).map lowerChar⟩

/-- Modelled from the spec §4.A: `Email::new`; `is_local` is exact normalized
membership in the account address set. -/
def Email.new (s : String) (account_emails : List String) : Option Email :=
  let a := normalizeAddr s
  if a = "" then none
  else some { email := a, is_local := account_emails.contains a }

/-- Modelled from the spec §4.A: `Email::from_uri` accepts the address
portion of a calendar URI of Email form. -/
def Email.from_uri (u : Uri) (account_emails : List String) : Option Email :=
  match u with
  | .mail a => Email.new a account_emails
  | .location _ => none

/-- `Organizer` (spec §3; `scheduling/mod.rs`). -/
structure Organizer where
  entry_id : Nat
  email : Email
  is_server_scheduling : Bool
  force_send : Option ICalendarScheduleForceSendValue
deriving DecidableEq

/-- `Attendee` (spec §3; `scheduling/mod.rs`). -/
structure Attendee where
  entry_id : Nat
  email : Email
  rsvp : Option Bool
  is_server_scheduling : Bool
  force_send : Option ICalendarScheduleForceSendValue
  part_stat : Option Nat
  delegated_from : List Email
  delegated_to : List Email
  cu_type : Option Nat
  role : Option Nat
  sent_by : Option Email
deriving DecidableEq

/-- `RecurrenceId` (spec §3). -/
structure RecurrenceId where
  entry_id : Nat
  date : Int
  this_and_future : Bool
deriving DecidableEq

/-- `InstanceId` (spec §3). -/
inductive InstanceId where
  | main
  | recurrence : RecurrenceId → InstanceId
deriving DecidableEq

/-- Modelled from the spec §3 / P2 (the `Eq`/`Hash` used for the component
map keys lives in `scheduling/mod.rs`, not in the surveyed source): recurrence
keys are identified by their `(date, this_and_future)` pair, `entry_id` is
not part of the key. -/
def InstanceId.keyEq : InstanceId → InstanceId → Bool
  | .main, .main => true
  | .recurrence a, .recurrence b =>
      decide (a.date = b.date) && decide (a.this_and_future = b.this_and_future)
  | _, _ => false

/-- `ItipDateTime` (spec §3): raw date kept next to its resolved timestamp. -/
structure ItipDateTime where
  date : PartialDateTime
  tz_id : Option String
  timestamp : Int
deriving DecidableEq

/-- `ItipEntryValue` (spec §3): the reduced scheduling value set. -/
inductive ItipEntryValue where
  | text : String → ItipEntryValue
  | dateTime : ItipDateTime → ItipEntryValue
  | duration : Nat → ItipEntryValue
  | rrule : Nat → ItipEntryValue
  | period : Nat → ItipEntryValue
  | integer : Int → ItipEntryValue
  | status : Nat → ItipEntryValue
deriving DecidableEq

/-- `ItipEntry` (spec §3). -/
structure ItipEntry where
  name : ICalendarProperty
  value : ItipEntryValue
deriving DecidableEq

/-- `ItipSnapshot` (spec §3): the per-component snapshot. -/
structure ItipSnapshot where
  comp_id : Nat
  comp : ICalendarComponent
  attendees : List Attendee
  dtstamp : Option PartialDateTime
  entries : List ItipEntry
  sequence : Option Int
  request_status : List String
deriving DecidableEq

/-- `ItipSnapshots` (spec §3): the document result.  The component map is an
insertion-ordered association list whose keys are compared by
`InstanceId.keyEq`. -/
structure ItipSnapshots where
  organizer : Organizer
  uid : String
  components : List (InstanceId × ItipSnapshot)
deriving DecidableEq

/-- `ItipError` (spec §4.G), restricted to the kinds `itip_snapshot` raises. -/
inductive ItipError where
  | noSchedulingInfo
  | multipleObjectTypes
  | multipleOrganizer
  | multipleUid
  | multipleObjectInstances
  | missingUid
  | otherSchedulingAgent
  | notOrganizerNorAttendee
deriving DecidableEq

/-- Modelled from the spec §3 / §4.I (the attendee set type lives in
`scheduling/mod.rs`): a set keyed by the normalized address, first insertion
wins, iteration in insertion order. -/
def insertAttendee (attendees : List Attendee) (a : Attendee) : List Attendee :=
  if attendees.any fun b => decide (b.email.email = a.email.email) then attendees
  else attendees ++ [a]

/-- Modelled from the spec §4.E: the entry set is keyed by
`(property, value)`; duplicates collapse. -/
def insertItipEntry (entries : List ItipEntry) (e : ItipEntry) : List ItipEntry :=
  if entries.any fun x => decide (x = e) then entries
  else entries ++ [e]

/-- Timestamp resolution of snapshot.rs lines 221-228 / 266-275: zoned
conversion through the document resolver, else the floating `to_timestamp`,
else the `i64` default 0. -/
def resolveTimestamp (env : CalcardEnv) (date : PartialDateTime)
    (tz_id : Option String) : Int :=
  match env.to_date_time_with_tz date (env.resolve tz_id) with
  | some ts => ts
  | none => (env.to_timestamp date).getD 0

/-- snapshot.rs lines 79-90: one step of the ORGANIZER parameter scan. -/
def orgParamStep (part : Organizer) (param : ICalendarParameter) : Organizer :=
  match param with
  | .scheduleAgent agent =>
      { part with is_server_scheduling := decide (agent = .server) }
  | .scheduleForceSend f => { part with force_send := some f }
  | _ => part

/-- snapshot.rs lines 65-90: parse the ORGANIZER entry's first value as an
email and fold its parameters into an `Organizer` part. -/
def organizerPart (account_emails : List String) (entry_id : Nat)
    (e : ICalendarEntry) : Option Organizer :=
  match (e.values.head?.bind ICalendarValue.asText).bind
      (fun v => Email.new v account_emails) with
  | none => none
  | some email =>
    some (e.params.foldl orgParamStep
      { entry_id := entry_id, email := email, is_server_scheduling := true,
        force_send := none })

/-- snapshot.rs lines 130-168: one step of the ATTENDEE parameter scan. -/
def attParamStep (account_emails : List String) (part : Attendee)
    (param : ICalendarParameter) : Attendee :=
  match param with
  | .scheduleAgent agent =>
      { part with is_server_scheduling := decide (agent = .server) }
  | .rsvp r => { part with rsvp := some r }
  | .scheduleForceSend f => { part with force_send := some f }
  | .partstat v => { part with part_stat := some v }
  | .cutype v => { part with cu_type := some v }
  | .delegatedFrom us =>
      { part with
        delegated_from := us.filterMap fun u => Email.from_uri u account_emails }
  | .delegatedTo us =>
      { part with
        delegated_to := us.filterMap fun u => Email.from_uri u account_emails }
  | .role v => { part with role := some v }
  | .sentBy u => { part with sent_by := Email.from_uri u account_emails }
  | _ => part

/-- snapshot.rs lines 110-168: parse the ATTENDEE entry's first value as an
email and fold its parameters into an `Attendee` part. -/
def attendeePart (account_emails : List String) (entry_id : Nat)
    (e : ICalendarEntry) : Option Attendee :=
  match (e.values.head?.bind ICalendarValue.asText).bind
      (fun v => Email.new v account_emails) with
  | none => none
  | some email =>
    some (e.params.foldl (attParamStep account_emails)
      { entry_id := entry_id, email := email, rsvp := none,
        is_server_scheduling := true, force_send := none, part_stat := none,
        delegated_from := [], delegated_to := [], cu_type := none,
        role := none, sent_by := none })

/-- snapshot.rs lines 207-217: one step of the RECURRENCE-ID parameter scan,
accumulating `(this_and_future, tz_id)`. -/
def ridParamStep (acc : Bool × Option String) (param : ICalendarParameter) :
    Bool × Option String :=
  match param with
  | .tzid id => (acc.1, some id)
  | .range => (true, acc.2)
  | _ => acc

/-- snapshot.rs lines 258-285: the value projection of spec §4.C; values not
in the reduced set are dropped. -/
def projectValue (env : CalcardEnv) (tz : Option String) :
    ICalendarValue → Option ItipEntryValue
  | .uri (.location s) => some (.text s)
  | .pdt date =>
      some (.dateTime
        { date := date, tz_id := tz, timestamp := resolveTimestamp env date tz })
  | .duration v => some (.duration v)
  | .recurrenceRule v => some (.rrule v)
  | .period v => some (.period v)
  | .integer v => some (.integer v)
  | .text v => some (.text v)
  | .status v => some (.status v)
  | _ => none

/-- The document-level mutable locals of `itip_snapshot` shared between the
entry walk and the component walk: `organizer`, `uid`, `has_local_emails`. -/
structure SchedState where
  organizer : Option Organizer
  uid : Option String
  has_local_emails : Bool
deriving DecidableEq

/-- State of the entry loop of one scheduling component (lines 51-294):
the shared document locals, the snapshot under construction and the
instance id, which starts at `Main`. -/
structure EntryState where
  sched : SchedState
  snap : ItipSnapshot
  instance_id : InstanceId
deriving DecidableEq

/-- State of the component walk (lines 32-37): the shared document locals,
`expect_object_type` and the component map. -/
structure DocState where
  sched : SchedState
  expect_object_type : Option ICalendarComponentType
  components : List (InstanceId × ItipSnapshot)
deriving DecidableEq

/-- snapshot.rs lines 62-294: process one entry of a scheduling component
(the body of the `for (entry_id, entry)` loop). -/
def processEntry (env : CalcardEnv) (account_emails : List String)
    (force_add_client_scheduling : Bool) (entry_id : Nat)
    (e : ICalendarEntry) (st : EntryState) : Except ItipError EntryState :=
  match e.name with
  | .organizer =>
    match organizerPart account_emails entry_id e with
    | none => .ok st
    | some part =>
      let sched :=
        { st.sched with
          has_local_emails := st.sched.has_local_emails || part.email.is_local }
      if !part.is_server_scheduling && !force_add_client_scheduling then
        .error .otherSchedulingAgent
      else
        match sched.organizer with
        | some existing =>
          if existing.email.email ≠ part.email.email then
            .error .multipleOrganizer
          else .ok { st with sched := sched }
        | none => .ok { st with sched := { sched with organizer := some part } }
  | .attendee =>
    match attendeePart account_emails entry_id e with
    | none => .ok st
    | some part =>
      .ok { st with
            sched :=
              { st.sched with
                has_local_emails := st.sched.has_local_emails ||
                  (part.email.is_local &&
                    (force_add_client_scheduling || part.is_server_scheduling)) },
            snap := { st.snap with attendees := insertAttendee st.snap.attendees part } }
  | .uid =>
    match e.values.head?.bind ICalendarValue.asText with
    | none => .ok st
    | some v =>
      let u := strTrim v
      if u = "" then .ok st
      else
        match st.sched.uid with
        | some existing =>
          if existing ≠ u then .error .multipleUid else .ok st
        | none => .ok { st with sched := { st.sched with uid := some u } }
  | .sequence =>
    match e.values.head?.bind ICalendarValue.asInteger with
    | none => .ok st
    | some n => .ok { st with snap := { st.snap with sequence := some n } }
  | .recurrenceId =>
    match e.values.head?.bind ICalendarValue.asPdt with
    | none => .ok st
    | some date =>
      let p := e.params.foldl ridParamStep (false, none)
      .ok { st with
            instance_id := .recurrence
              { entry_id := entry_id,
                date := resolveTimestamp env date p.2,
                this_and_future := p.1 } }
  | .requestStatus =>
    match e.values.head?.bind ICalendarValue.asText with
    | none => .ok st
    | some v =>
      .ok { st with
            snap := { st.snap with request_status := st.snap.request_status ++ [v] } }
  | .dtstamp =>
    .ok { st with
          snap := { st.snap with dtstamp := e.values.head?.bind ICalendarValue.asPdt } }
  | .dtstart | .dtend | .duration | .due | .rrule | .rdate | .exdate
  | .status | .location | .summary | .description | .priority
  | .percentComplete | .completed =>
    let tz := e.tzId
    .ok { st with
          snap :=
            { st.snap with
              entries := e.values.foldl
                (fun acc v =>
                  match projectValue env tz v with
                  | some ev => insertItipEntry acc { name := e.name, value := ev }
                  | none => acc)
                st.snap.entries } }
  | _ => .ok st

/-- The entry loop of snapshot.rs lines 62-294: entries processed in order,
the first error aborts the whole extraction. -/
def walkEntries (env : CalcardEnv) (account_emails : List String)
    (force_add_client_scheduling : Bool) :
    List ICalendarEntry → Nat → EntryState → Except ItipError EntryState
  | [], _, st => .ok st
  | e :: rest, i, st =>
    match processEntry env account_emails force_add_client_scheduling i e st with
    | .error err => .error err
    | .ok st' => walkEntries env account_emails force_add_client_scheduling rest (i + 1) st'

/-- snapshot.rs lines 41-49: enforce a single scheduling component kind. -/
def checkObjectType (expect : Option ICalendarComponentType)
    (k : ICalendarComponentType) :
    Except ItipError (Option ICalendarComponentType) :=
  match expect with
  | some expected => if expected ≠ k then .error .multipleObjectTypes else .ok (some expected)
  | none => .ok (some k)

/-- The fresh `ItipSnapshot` of snapshot.rs lines 51-59. -/
def initSnap (comp_id : Nat) (comp : ICalendarComponent) : ItipSnapshot :=
  { comp_id := comp_id, comp := comp, attendees := [], dtstamp := none,
    entries := [], sequence := none, request_status := [] }

/-- Key membership in the component map (the `insert(...).is_some()` test of
line 296, with the modelled `InstanceId` key equality). -/
def hasKey (components : List (InstanceId × ItipSnapshot)) (iid : InstanceId) : Bool :=
  components.any fun kv => kv.1.keyEq iid

/-- snapshot.rs lines 39-300, one iteration of the component loop:
non-scheduling components are skipped whole; scheduling components pass the
kind check, run the entry loop and are inserted into the component map,
colliding keys aborting with `MultipleObjectInstances`. -/
def processComp (env : CalcardEnv) (account_emails : List String)
    (force_add_client_scheduling : Bool) (comp_id : Nat)
    (comp : ICalendarComponent) (doc : DocState) : Except ItipError DocState :=
  if comp.component_type.is_scheduling_object then
    match checkObjectType doc.expect_object_type comp.component_type with
    | .error err => .error err
    | .ok expect' =>
      match walkEntries env account_emails force_add_client_scheduling
          comp.entries 0
          { sched := doc.sched, snap := initSnap comp_id comp, instance_id := .main } with
      | .error err => .error err
      | .ok st =>
        if hasKey doc.components st.instance_id then .error .multipleObjectInstances
        else
          .ok { sched := st.sched, expect_object_type := expect',
                components := doc.components ++ [(st.instance_id, st.snap)] }
  else .ok doc

/-- The component loop of snapshot.rs lines 39-300. -/
def walkComps (env : CalcardEnv) (account_emails : List String)
    (force_add_client_scheduling : Bool) :
    List ICalendarComponent → Nat → DocState → Except ItipError DocState
  | [], _, doc => .ok doc
  | c :: rest, i, doc =>
    match processComp env account_emails force_add_client_scheduling i c doc with
    | .error err => .error err
    | .ok doc' => walkComps env account_emails force_add_client_scheduling rest (i + 1) doc'

/-- The initial document state (snapshot.rs lines 32-37). -/
def initDoc : DocState :=
  { sched := { organizer := none, uid := none, has_local_emails := false },
    expect_object_type := none, components := [] }

/-- snapshot.rs lines 302-310: the post-walk checks, in source order:
`has_local_emails` gates everything, then the organizer, then the UID. -/
def finalizeSnapshot (st : DocState) : Except ItipError ItipSnapshots :=
  if st.sched.has_local_emails then
    match st.sched.organizer with
    | none => .error .noSchedulingInfo
    | some org =>
      match st.sched.uid with
      | none => .error .missingUid
      | some u => .ok { organizer := org, uid := u, components := st.components }
  else .error .notOrganizerNorAttendee

/-- The early guard of snapshot.rs lines 22-30: some component is a
scheduling object and carries an ORGANIZER property. -/
def hasOrganizerComp (ical : ICalendar) : Bool :=
  ical.components.any fun comp =>
    comp.component_type.is_scheduling_object &&
      comp.entries.any fun e => decide (e.name = ICalendarProperty.organizer)

/-- `itip_snapshot` (snapshot.rs lines 17-311). -/
def itip_snapshot (env : CalcardEnv) (ical : ICalendar)
    (account_emails : List String) (force_add_client_scheduling : Bool) :
    Except ItipError ItipSnapshots :=
  if !hasOrganizerComp ical then .error .noSchedulingInfo
  else
    match walkComps env account_emails force_add_client_scheduling
        ical.components 0 initDoc with
    | .error err => .error err
    | .ok st => finalizeSnapshot st

/-- The UID a component entry declares: a UID property whose first textual
value trims to something non-empty. -/
def declaresUid (e : ICalendarEntry) : Option String :=
  if e.name = ICalendarProperty.uid then
    match e.values.head?.bind ICalendarValue.asText with
    | some v => if strTrim v = "" then none else some (strTrim v)
    | none => none
  else none

/-- The raw date of a RECURRENCE-ID entry whose first value is a partial
date-time. -/
def isParsedRid (e : ICalendarEntry) : Option PartialDateTime :=
  if e.name = ICalendarProperty.recurrenceId then
    e.values.head?.bind ICalendarValue.asPdt
  else none

/-- The last RECURRENCE-ID entry (with its position) whose first value is a
partial date-time. -/
def lastRid? : List ICalendarEntry → Option (Nat × ICalendarEntry)
  | [] => none
  | e :: rest =>
    match lastRid? rest with
    | some (i, e') => some (i + 1, e')
    | none => if (isParsedRid e).isSome then some (0, e) else none

/-- The value of the last TZID parameter of a parameter list. -/
def lastTzid : List ICalendarParameter → Option String
  | [] => none
  | p :: rest =>
    match lastTzid rest with
    | some t => some t
    | none =>
      match p with
      | .tzid s => some s
      | _ => none

/-- Whether a RANGE parameter is present. -/
def hasRange (params : List ICalendarParameter) : Bool :=
  params.any fun p => decide (p = ICalendarParameter.range)

/-- The value of the last SCHEDULE-AGENT parameter of a parameter list. -/
def lastScheduleAgent :
    List ICalendarParameter → Option ICalendarScheduleAgentValue
  | [] => none
  | p :: rest =>
    match lastScheduleAgent rest with
    | some a => some a
    | none =>
      match p with
      | .scheduleAgent a => some a
      | _ => none

/-- The properties projected into `snapshot.entries` (spec §4.E). -/
def isProjectedProp : ICalendarProperty → Bool
  | .dtstart | .dtend | .duration | .due | .rrule | .rdate | .exdate
  | .status | .location | .summary | .description | .priority
  | .percentComplete | .completed => true
  | _ => false

/-- An entry justifies `has_local_emails`: either it is an ORGANIZER whose
parsed email is local, or an ATTENDEE whose parsed email is local and which
is server-scheduled or covered by `force_add_client_scheduling`. -/
def justifiesLocal (account_emails : List String) (flag : Bool)
    (e : ICalendarEntry) : Prop :=
  (e.name = ICalendarProperty.organizer ∧
    ∃ i p, organizerPart account_emails i e = some p ∧ p.email.is_local = true) ∨
  (e.name = ICalendarProperty.attendee ∧
    ∃ i a, attendeePart account_emails i e = some a ∧ a.email.is_local = true ∧
      (flag || a.is_server_scheduling) = true)

/-- Well-formedness of a stored organizer: its locality flag agrees with
membership of its normalized address in the account set. -/
def OrgWF (accounts : List String) (o? : Option Organizer) : Prop :=
  ∀ o, o? = some o → o.email.is_local = accounts.contains o.email.email

/-- Well-formedness of a stored UID: it is non-empty. -/
def UidNE (u? : Option String) : Prop :=
  ∀ u, u? = some u → u ≠ ""

/-- Pairwise distinctness of the component-map keys. -/
def KeysOk (components : List (InstanceId × ItipSnapshot)) : Prop :=
  components.Pairwise fun a b => a.1.keyEq b.1 = false

/-- A calcard environment in which every zoned and floating conversion
fails; timestamps then take the default 0. -/
def cexEnv : CalcardEnv :=
  { resolve := fun _ => 0, to_date_time_with_tz := fun _ _ => none,
    to_timestamp := fun _ => none }

/-- An environment whose floating conversion knows the raw date token 5. -/
def envW : CalcardEnv :=
  { resolve := fun _ => 0, to_date_time_with_tz := fun _ _ => none,
    to_timestamp := fun d => if d.id = 5 then some 42 else none }

/-- An ORGANIZER property line with the given address and parameters. -/
def orgEntry (addr : String) (ps : List ICalendarParameter) : ICalendarEntry :=
  { name := .organizer, params := ps, values := [.text addr] }

/-- A UID property line. -/
def uidEntry (s : String) : ICalendarEntry :=
  { name := .uid, params := [], values := [.text s] }

/-- An ATTENDEE property line. -/
def attEntry (addr : String) (ps : List ICalendarParameter) : ICalendarEntry :=
  { name := .attendee, params := ps, values := [.text addr] }

/-- A VEVENT component. -/
def vevent (es : List ICalendarEntry) : ICalendarComponent :=
  { component_type := .vevent, entries := es }

/-- Witness calendar for C1: a VTIMEZONE carrying an ORGANIZER (ignored: not
a scheduling object) plus a VEVENT without ORGANIZER. -/
def c1cal : ICalendar :=
  { components := [{ component_type := .vtimezone,
                     entries := [orgEntry "a@x" []] },
                   vevent [uidEntry "u"]] }

/-- Witness calendar for C5: organizer and no attendee, both remote. -/
def c5cal : ICalendar := { components := [vevent [orgEntry "o@r" [], uidEntry "u"]] }

/-- The document state c5cal's walk reaches. -/
def c5st : DocState :=
  match walkComps cexEnv [] false c5cal.components 0 initDoc with
  | .ok st => st
  | .error _ => initDoc

/-- Witness entries for C8: two parsable RECURRENCE-ID properties; the first
carries TZID, the second carries RANGE and wins. -/
def c8ridA : ICalendarEntry :=
  { name := .recurrenceId, params := [.tzid "X"], values := [.pdt { id := 1 }] }

def c8ridB : ICalendarEntry :=
  { name := .recurrenceId, params := [.range], values := [.pdt { id := 5 }] }

def c8st0 : EntryState :=
  { sched := { organizer := none, uid := none, has_local_emails := false },
    snap := initSnap 0 (vevent []), instance_id := .main }

def c8st1 : EntryState :=
  match walkEntries envW [] false [c8ridA, c8ridB] 0 c8st0 with
  | .ok st => st
  | .error _ => c8st0

/-- C2 counterexample calendar: the ORGANIZER carries SCHEDULE-AGENT=CLIENT
followed by SCHEDULE-AGENT=SERVER; the last parameter wins, so the organizer
is server-scheduled and the call is accepted although a
`SCHEDULE-AGENT=CLIENT` parameter is present and the flag is false. -/
def c2cal : ICalendar :=
  { components :=
      [vevent [orgEntry "a@x" [.scheduleAgent .client, .scheduleAgent .server],
               uidEntry "u"]] }

/-- Concrete client-scheduled ORGANIZER entry used by the C2 witness. -/
def c2orgC : ICalendarEntry := orgEntry "b@y" [.scheduleAgent .client]

/-- The organizer `c2orgC` parses to. -/
def c2pC : Organizer :=
  { entry_id := 0, email := { email := "b@y", is_local := false },
    is_server_scheduling := false, force_send := none }

/-- C3 counterexample calendar: two parsable ORGANIZER properties with
different normalized addresses, the second one client-scheduled. -/
def c3cal : ICalendar :=
  { components :=
      [vevent [orgEntry "a@x" [], uidEntry "u",
               orgEntry "b@x" [.scheduleAgent .client]]] }

/-- Entry state already holding the local organizer `a@x`, for the C3
witness. -/
def c3stA : EntryState :=
  { sched :=
      { organizer := some
          { entry_id := 0, email := { email := "a@x", is_local := true },
            is_server_scheduling := true, force_send := none },
        uid := none, has_local_emails := true },
    snap := initSnap 0 (vevent []), instance_id := .main }

/-- The server-scheduled organizer `b@x` of the C3 witness. -/
def c3pB : Organizer :=
  { entry_id := 2, email := { email := "b@x", is_local := false },
    is_server_scheduling := true, force_send := none }

/-- C4 counterexample calendar: two scheduling components declaring the
different non-empty UIDs "u" and "v"; the second component's client-scheduled
ORGANIZER is processed before its UID. -/
def c4cal : ICalendar :=
  { components :=
      [vevent [orgEntry "a@x" [], uidEntry "u"],
       vevent [orgEntry "a@x" [.scheduleAgent .client], uidEntry "v"]] }

/-- Entry state already holding UID "u", for the C4 witness. -/
def c4stU : EntryState :=
  { sched := { organizer := none, uid := some "u", has_local_emails := false },
    snap := initSnap 0 (vevent []), instance_id := .main }

/-- C6 counterexample calendar: a VEVENT (with two different UIDs) followed
by a VTODO — mixed scheduling kinds. -/
def c6cal : ICalendar :=
  { components :=
      [vevent [orgEntry "a@x" [], uidEntry "u", uidEntry "v"],
       { component_type := .vtodo, entries := [orgEntry "a@x" []] }] }

/-- C6 witness prefix: one VEVENT with organizer and UID. -/
def c6l1 : List ICalendarComponent := [vevent [orgEntry "a@x" [], uidEntry "u"]]

/-- The document state reached after walking `c6l1`. -/
def c6doc : DocState :=
  match walkComps cexEnv ["a@x"] false c6l1 0 initDoc with
  | .ok doc => doc
  | .error _ => initDoc

/-- C7 counterexample calendar: components 1 and 3 both resolve to the `Main`
key, but component 2 fails with `MultipleUid` before the collision is
reached. -/
def c7cal : ICalendar :=
  { components :=
      [vevent [orgEntry "a@x" [], uidEntry "u"],
       vevent [uidEntry "v"],
       vevent [uidEntry "u"]] }

/-- Document state already holding a `Main` snapshot, for the C7 witness. -/
def c7doc : DocState :=
  { sched :=
      { organizer := some
          { entry_id := 0, email := { email := "a@x", is_local := true },
            is_server_scheduling := true, force_send := none },
        uid := some "u", has_local_emails := true },
    expect_object_type := some .vevent,
    components := [(InstanceId.main, initSnap 0 (vevent []))] }

/-- The colliding component of the C7 witness. -/
def c7comp : ICalendarComponent := vevent [uidEntry "u"]

/-- The entry state the C7 witness component's walk reaches. -/
def c7st : EntryState :=
  match walkEntries cexEnv ["a@x"] false c7comp.entries 0
      { sched := c7doc.sched, snap := initSnap 1 c7comp, instance_id := .main } with
  | .ok st => st
  | .error _ => c8st0

/-- C9 counterexample calendar: the organizer is remote; a local
client-scheduled ATTENDEE is kept by the first-wins attendee set while its
server-scheduled duplicate — which is what sets `has_local_emails` — is
discarded. -/
def c9cal : ICalendar :=
  { components :=
      [vevent [orgEntry "o@r" [], uidEntry "u",
               attEntry "a@x" [.scheduleAgent .client],
               attEntry "a@x" []]] }

/-- The attendee the C9 witness entry parses to. -/
def c9att : Attendee :=
  { entry_id := 0, email := { email := "a@x", is_local := true }, rsvp := none,
    is_server_scheduling := true, force_send := none, part_stat := none,
    delegated_from := [], delegated_to := [], cu_type := none, role := none,
    sent_by := none }

/-! ### Lemmas -/

lemma Email_new_is_local {s : String} {accounts : List String} {em : Email}
    (h : Email.new s accounts = some em) :
    em.is_local = accounts.contains em.email := by
  simp only [Email.new] at h
  split at h
  · cases h
  · cases h
    rfl

lemma orgFold_email (params : List ICalendarParameter) (part : Organizer) :
    (List.foldl orgParamStep part params).email = part.email := by
  induction params generalizing part with
  | nil => rfl
  | cons p rest ih =>
    simp only [List.foldl_cons]
    rw [ih]
    cases p <;> rfl

lemma orgFold_is_server (params : List ICalendarParameter) (part : Organizer) :
    (List.foldl orgParamStep part params).is_server_scheduling =
      match lastScheduleAgent params with
      | some a => decide (a = ICalendarScheduleAgentValue.server)
      | none => part.is_server_scheduling := by
  induction params generalizing part with
  | nil => rfl
  | cons p rest ih =>
    simp only [List.foldl_cons]
    rw [ih]
    cases hrest : lastScheduleAgent rest with
    | some a => simp [lastScheduleAgent, hrest]
    | none =>
      cases p <;> simp [lastScheduleAgent, hrest, orgParamStep]

lemma organizerPart_indep {accounts : List String} {i : Nat} {e : ICalendarEntry}
    {p : Organizer} (j : Nat) (h : organizerPart accounts i e = some p) :
    ∃ q, organizerPart accounts j e = some q ∧ q.email = p.email ∧
      q.is_server_scheduling = p.is_server_scheduling := by
  unfold organizerPart at h ⊢
  cases hv : (e.values.head?.bind ICalendarValue.asText).bind
      (fun v => Email.new v accounts) with
  | none => rw [hv] at h; cases h
  | some email =>
    rw [hv] at h
    cases h
    refine ⟨_, rfl, ?_, ?_⟩
    · rw [orgFold_email, orgFold_email]
    · rw [orgFold_is_server, orgFold_is_server]

lemma ridFold_spec (params : List ICalendarParameter) (acc : Bool × Option String) :
    List.foldl ridParamStep acc params =
      (acc.1 || hasRange params,
        match lastTzid params with
        | some t => some t
        | none => acc.2) := by
  induction params generalizing acc with
  | nil => cases acc; simp [hasRange, lastTzid]
  | cons p rest ih =>
    simp only [List.foldl_cons]
    rw [ih]
    cases hrest : lastTzid rest with
    | some t =>
      cases p <;> simp [hasRange, lastTzid, hrest, ridParamStep, Bool.or_assoc]
    | none =>
      cases p <;> simp [hasRange, lastTzid, hrest, ridParamStep, Bool.or_assoc]

lemma processEntry_organizer_pres {env : CalcardEnv} {accounts : List String}
    {flag : Bool} {i : Nat} {e : ICalendarEntry} {st st' : EntryState}
    {o : Organizer}
    (h : processEntry env accounts flag i e st = .ok st')
    (ho : st.sched.organizer = some o) : st'.sched.organizer = some o := by
  simp only [processEntry] at h
  split at h
  all_goals repeat' split at h
  all_goals (try cases h)
  all_goals simp_all

lemma processEntry_uid_pres {env : CalcardEnv} {accounts : List String}
    {flag : Bool} {i : Nat} {e : ICalendarEntry} {st st' : EntryState}
    {u : String}
    (h : processEntry env accounts flag i e st = .ok st')
    (hu : st.sched.uid = some u) : st'.sched.uid = some u := by
  simp only [processEntry] at h
  split at h
  all_goals repeat' split at h
  all_goals (try cases h)
  all_goals simp_all

lemma processEntry_has_local {env : CalcardEnv} {accounts : List String}
    {flag : Bool} {i : Nat} {e : ICalendarEntry} {st st' : EntryState}
    (h : processEntry env accounts flag i e st = .ok st')
    (hl : st'.sched.has_local_emails = true) :
    st.sched.has_local_emails = true ∨ justifiesLocal accounts flag e := by
  simp only [processEntry] at h
  split at h
  · -- ORGANIZER
    rename_i hn
    split at h
    · cases h; exact .inl hl
    · rename_i part hp
      split at h
      · cases h
      · split at h
        · split at h
          · cases h
          · cases h
            simp only [Bool.or_eq_true] at hl
            rcases hl with hl | hl
            · exact .inl hl
            · exact .inr (.inl ⟨hn, i, part, hp, hl⟩)
        · cases h
          simp only [Bool.or_eq_true] at hl
          rcases hl with hl | hl
          · exact .inl hl
          · exact .inr (.inl ⟨hn, i, part, hp, hl⟩)
  · -- ATTENDEE
    rename_i hn
    split at h
    · cases h; exact .inl hl
    · rename_i part hp
      cases h
      simp only [Bool.or_eq_true, Bool.and_eq_true] at hl
      rcases hl with hl | ⟨hl1, hl2⟩
      · exact .inl hl
      · exact .inr (.inr ⟨hn, i, part, hp, hl1, by simp [hl2]⟩)
  all_goals ((repeat' split at h) <;> (try cases h) <;> simp_all)

lemma declaresUid_elim {e : ICalendarEntry} {u : String}
    (h : declaresUid e = some u) :
    e.name = ICalendarProperty.uid ∧
      ∃ v, e.values.head?.bind ICalendarValue.asText = some v ∧
        strTrim v ≠ "" ∧ u = strTrim v := by
  unfold declaresUid at h
  split at h
  · rename_i hn
    split at h
    · rename_i v hv
      split at h
      · cases h
      · rename_i hne
        cases h
        exact ⟨hn, v, hv, hne, rfl⟩
    · cases h
  · cases h

lemma organizerPart_WF {accounts : List String} {i : Nat} {e : ICalendarEntry}
    {p : Organizer} (h : organizerPart accounts i e = some p) :
    p.email.is_local = accounts.contains p.email.email := by
  unfold organizerPart at h
  cases hv : (e.values.head?.bind ICalendarValue.asText).bind
      (fun v => Email.new v accounts) with
  | none => rw [hv] at h; cases h
  | some email =>
    rw [hv] at h
    cases h
    rw [orgFold_email]
    rcases Option.bind_eq_some.mp hv with ⟨v, _, hnew⟩
    exact Email_new_is_local hnew

lemma processEntry_org_ok {env : CalcardEnv} {accounts : List String}
    {flag : Bool} {i : Nat} {e : ICalendarEntry} {st st' : EntryState}
    {p : Organizer}
    (hn : e.name = ICalendarProperty.organizer)
    (hp : organizerPart accounts i e = some p)
    (h : processEntry env accounts flag i e st = .ok st') :
    (p.is_server_scheduling || flag) = true ∧
      ∃ o, st'.sched.organizer = some o ∧ o.email.email = p.email.email := by
  simp only [processEntry, hn, hp] at h
  split at h
  · cases h
  · rename_i hgate
    have hg : (p.is_server_scheduling || flag) = true := by
      revert hgate
      cases p.is_server_scheduling <;> cases flag <;> simp
    split at h
    · rename_i existing heq
      split at h
      · cases h
      · rename_i hne
        cases h
        exact ⟨hg, existing, heq, by simpa using Decidable.not_not.mp hne⟩
    · rename_i heq
      cases h
      exact ⟨hg, p, rfl, rfl⟩

lemma processEntry_org_gate_err {env : CalcardEnv} {accounts : List String}
    {i : Nat} {e : ICalendarEntry} {st : EntryState} {p : Organizer}
    (hn : e.name = ICalendarProperty.organizer)
    (hp : organizerPart accounts i e = some p)
    (hsrv : p.is_server_scheduling = false) :
    processEntry env accounts false i e st = .error .otherSchedulingAgent := by
  simp [processEntry, hn, hp, hsrv]

lemma processEntry_org_conflict {env : CalcardEnv} {accounts : List String}
    {flag : Bool} {i : Nat} {e : ICalendarEntry} {st : EntryState}
    {p existing : Organizer}
    (hn : e.name = ICalendarProperty.organizer)
    (hp : organizerPart accounts i e = some p)
    (hg : (p.is_server_scheduling || flag) = true)
    (ho : st.sched.organizer = some existing)
    (hne : existing.email.email ≠ p.email.email) :
    processEntry env accounts flag i e st = .error .multipleOrganizer := by
  have hgate : (!p.is_server_scheduling && !flag) = false := by
    revert hg
    cases p.is_server_scheduling <;> cases flag <;> simp
  simp [processEntry, hn, hp, hgate, ho, hne]

lemma processEntry_org_sets {env : CalcardEnv} {accounts : List String}
    {flag : Bool} {i : Nat} {e : ICalendarEntry} {st : EntryState}
    {p : Organizer}
    (hn : e.name = ICalendarProperty.organizer)
    (hp : organizerPart accounts i e = some p)
    (hg : (p.is_server_scheduling || flag) = true)
    (ho : st.sched.organizer = none) :
    processEntry env accounts flag i e st =
      .ok { st with
            sched :=
              { st.sched with
                organizer := some p,
                has_local_emails := st.sched.has_local_emails || p.email.is_local } } := by
  have hgate : (!p.is_server_scheduling && !flag) = false := by
    revert hg
    cases p.is_server_scheduling <;> cases flag <;> simp
  simp [processEntry, hn, hp, hgate, ho]

lemma processEntry_uid_sets {env : CalcardEnv} {accounts : List String}
    {flag : Bool} {i : Nat} {e : ICalendarEntry} {st st' : EntryState}
    {u : String}
    (hd : declaresUid e = some u)
    (h : processEntry env accounts flag i e st = .ok st') :
    st'.sched.uid = some u := by
  obtain ⟨hn, v, hv, hne, rfl⟩ := declaresUid_elim hd
  simp [processEntry, hn, hv, hne] at h
  split at h
  · split at h
    all_goals (try cases h)
    all_goals simp_all
  · cases h
    rfl

lemma processEntry_uid_conflict {env : CalcardEnv} {accounts : List String}
    {flag : Bool} {i : Nat} {e : ICalendarEntry} {st : EntryState}
    {u w : String}
    (hd : declaresUid e = some u)
    (hw : st.sched.uid = some w)
    (hne : w ≠ u) :
    processEntry env accounts flag i e st = .error .multipleUid := by
  obtain ⟨hn, v, hv, hemp, rfl⟩ := declaresUid_elim hd
  simp [processEntry, hn, hv, hemp, hw, hne]

lemma processEntry_uid_empty {env : CalcardEnv} {accounts : List String}
    {flag : Bool} {i : Nat} {e : ICalendarEntry} {st : EntryState}
    {v : String}
    (hn : e.name = ICalendarProperty.uid)
    (hv : e.values.head?.bind ICalendarValue.asText = some v)
    (hemp : strTrim v = "") :
    processEntry env accounts flag i e st = .ok st := by
  simp [processEntry, hn, hv, hemp]

lemma isParsedRid_elim {e : ICalendarEntry} {d : PartialDateTime}
    (h : isParsedRid e = some d) :
    e.name = ICalendarProperty.recurrenceId ∧
      e.values.head?.bind ICalendarValue.asPdt = some d := by
  unfold isParsedRid at h
  split at h
  · exact ⟨by assumption, h⟩
  · cases h

lemma processEntry_rid {env : CalcardEnv} {accounts : List String}
    {flag : Bool} {i : Nat} {e : ICalendarEntry} {st : EntryState}
    {d : PartialDateTime}
    (hr : isParsedRid e = some d) :
    processEntry env accounts flag i e st =
      .ok { st with
            instance_id := .recurrence
              { entry_id := i,
                date := resolveTimestamp env d (lastTzid e.params),
                this_and_future := hasRange e.params } } := by
  obtain ⟨hn, hv⟩ := isParsedRid_elim hr
  simp only [processEntry, hn, hv]
  rw [ridFold_spec]
  cases htz : lastTzid e.params <;> simp [htz]

lemma processEntry_iid_pres {env : CalcardEnv} {accounts : List String}
    {flag : Bool} {i : Nat} {e : ICalendarEntry} {st st' : EntryState}
    (hr : isParsedRid e = none)
    (h : processEntry env accounts flag i e st = .ok st') :
    st'.instance_id = st.instance_id := by
  unfold isParsedRid at hr
  simp only [processEntry] at h
  split at h
  all_goals repeat' split at h
  all_goals (try cases h)
  all_goals simp_all

lemma processEntry_rid_ok {env : CalcardEnv} {accounts : List String}
    {flag : Bool} {i : Nat} {e : ICalendarEntry} {st : EntryState}
    (hn : e.name = ICalendarProperty.recurrenceId) :
    ∃ st', processEntry env accounts flag i e st = .ok st' := by
  cases hr : isParsedRid e with
  | some d => exact ⟨_, processEntry_rid hr⟩
  | none =>
    unfold isParsedRid at hr
    rw [if_pos hn] at hr
    exact ⟨st, by simp [processEntry, hn, hr]⟩

lemma processEntry_projected_ok {env : CalcardEnv} {accounts : List String}
    {flag : Bool} {i : Nat} {e : ICalendarEntry} {st : EntryState}
    (hn : isProjectedProp e.name = true) :
    ∃ st', processEntry env accounts flag i e st = .ok st' := by
  obtain ⟨nm, ps, vs⟩ := e
  cases nm <;> simp [isProjectedProp] at hn <;> exact ⟨_, rfl⟩

lemma processEntry_organizer_cases {env : CalcardEnv} {accounts : List String}
    {flag : Bool} {i : Nat} {e : ICalendarEntry} {st st' : EntryState}
    (h : processEntry env accounts flag i e st = .ok st') :
    st'.sched.organizer = st.sched.organizer ∨
      ∃ p, organizerPart accounts i e = some p ∧ st'.sched.organizer = some p := by
  simp only [processEntry] at h
  split at h
  · split at h
    · cases h; exact .inl rfl
    · rename_i part hp
      split at h
      · cases h
      · split at h
        · split at h
          · cases h
          · cases h; exact .inl rfl
        · cases h; exact .inr ⟨part, hp, rfl⟩
  all_goals ((repeat' split at h) <;> (try cases h) <;> simp_all)

lemma processEntry_uid_cases {env : CalcardEnv} {accounts : List String}
    {flag : Bool} {i : Nat} {e : ICalendarEntry} {st st' : EntryState}
    (h : processEntry env accounts flag i e st = .ok st') :
    st'.sched.uid = st.sched.uid ∨
      ∃ u, declaresUid e = some u ∧ st'.sched.uid = some u := by
  simp only [processEntry] at h
  split at h
  all_goals repeat' split at h
  all_goals (try cases h)
  all_goals simp_all [declaresUid]

lemma processEntry_orgWF {env : CalcardEnv} {accounts : List String}
    {flag : Bool} {i : Nat} {e : ICalendarEntry} {st st' : EntryState}
    (h : processEntry env accounts flag i e st = .ok st')
    (hwf : OrgWF accounts st.sched.organizer) :
    OrgWF accounts st'.sched.organizer := by
  rcases processEntry_organizer_cases h with heq | ⟨p, hp, heq⟩
  · rw [heq]; exact hwf
  · rw [heq]
    intro o ho
    cases ho
    exact organizerPart_WF hp

lemma declaresUid_nonempty {e : ICalendarEntry} {u : String}
    (h : declaresUid e = some u) : u ≠ "" := by
  obtain ⟨-, v, -, hne, rfl⟩ := declaresUid_elim h
  exact hne

lemma processEntry_uidNE {env : CalcardEnv} {accounts : List String}
    {flag : Bool} {i : Nat} {e : ICalendarEntry} {st st' : EntryState}
    (h : processEntry env accounts flag i e st = .ok st')
    (hwf : UidNE st.sched.uid) : UidNE st'.sched.uid := by
  rcases processEntry_uid_cases h with heq | ⟨u, hu, heq⟩
  · rw [heq]; exact hwf
  · rw [heq]
    intro w hw
    cases hw
    exact declaresUid_nonempty hu

lemma walkEntries_organizer_pres {env : CalcardEnv} {accounts : List String}
    {flag : Bool} {l : List ICalendarEntry} {k : Nat} {st st' : EntryState}
    {o : Organizer}
    (h : walkEntries env accounts flag l k st = .ok st')
    (ho : st.sched.organizer = some o) : st'.sched.organizer = some o := by
  induction l generalizing k st with
  | nil => cases h; exact ho
  | cons e0 rest ih =>
    simp only [walkEntries] at h
    split at h
    · cases h
    · rename_i st1 hstep
      exact ih h (processEntry_organizer_pres hstep ho)

lemma walkEntries_uid_pres {env : CalcardEnv} {accounts : List String}
    {flag : Bool} {l : List ICalendarEntry} {k : Nat} {st st' : EntryState}
    {u : String}
    (h : walkEntries env accounts flag l k st = .ok st')
    (hu : st.sched.uid = some u) : st'.sched.uid = some u := by
  induction l generalizing k st with
  | nil => cases h; exact hu
  | cons e0 rest ih =>
    simp only [walkEntries] at h
    split at h
    · cases h
    · rename_i st1 hstep
      exact ih h (processEntry_uid_pres hstep hu)

lemma walkEntries_orgWF {env : CalcardEnv} {accounts : List String}
    {flag : Bool} {l : List ICalendarEntry} {k : Nat} {st st' : EntryState}
    (h : walkEntries env accounts flag l k st = .ok st')
    (hwf : OrgWF accounts st.sched.organizer) :
    OrgWF accounts st'.sched.organizer := by
  induction l generalizing k st with
  | nil => cases h; exact hwf
  | cons e0 rest ih =>
    simp only [walkEntries] at h
    split at h
    · cases h
    · rename_i st1 hstep
      exact ih h (processEntry_orgWF hstep hwf)

lemma walkEntries_uidNE {env : CalcardEnv} {accounts : List String}
    {flag : Bool} {l : List ICalendarEntry} {k : Nat} {st st' : EntryState}
    (h : walkEntries env accounts flag l k st = .ok st')
    (hwf : UidNE st.sched.uid) : UidNE st'.sched.uid := by
  induction l generalizing k st with
  | nil => cases h; exact hwf
  | cons e0 rest ih =>
    simp only [walkEntries] at h
    split at h
    · cases h
    · rename_i st1 hstep
      exact ih h (processEntry_uidNE hstep hwf)

lemma walkEntries_org_mem {env : CalcardEnv} {accounts : List String}
    {flag : Bool} {l : List ICalendarEntry} {k : Nat} {st st' : EntryState}
    {e : ICalendarEntry} {i : Nat} {p : Organizer}
    (h : walkEntries env accounts flag l k st = .ok st')
    (he : e ∈ l)
    (hn : e.name = ICalendarProperty.organizer)
    (hp : organizerPart accounts i e = some p) :
    (p.is_server_scheduling || flag) = true ∧
      ∃ o, st'.sched.organizer = some o ∧ o.email.email = p.email.email := by
  induction l generalizing k st with
  | nil => cases he
  | cons e0 rest ih =>
    simp only [walkEntries] at h
    split at h
    · cases h
    · rename_i st1 hstep
      rcases List.mem_cons.mp he with rfl | hmem
      · obtain ⟨q, hq, hqe, hqs⟩ := organizerPart_indep k hp
        obtain ⟨hg, o, ho1, hoe⟩ := processEntry_org_ok hn hq hstep
        rw [hqs] at hg
        refine ⟨hg, o, walkEntries_organizer_pres h ho1, ?_⟩
        rw [hoe, hqe]
      · exact ih h hmem

lemma walkEntries_uid_mem {env : CalcardEnv} {accounts : List String}
    {flag : Bool} {l : List ICalendarEntry} {k : Nat} {st st' : EntryState}
    {e : ICalendarEntry} {u : String}
    (h : walkEntries env accounts flag l k st = .ok st')
    (he : e ∈ l)
    (hd : declaresUid e = some u) : st'.sched.uid = some u := by
  induction l generalizing k st with
  | nil => cases he
  | cons e0 rest ih =>
    simp only [walkEntries] at h
    split at h
    · cases h
    · rename_i st1 hstep
      rcases List.mem_cons.mp he with rfl | hmem
      · exact walkEntries_uid_pres h (processEntry_uid_sets hd hstep)
      · exact ih h hmem

lemma walkEntries_has_local {env : CalcardEnv} {accounts : List String}
    {flag : Bool} {l : List ICalendarEntry} {k : Nat} {st st' : EntryState}
    (h : walkEntries env accounts flag l k st = .ok st')
    (hl : st'.sched.has_local_emails = true) :
    st.sched.has_local_emails = true ∨ ∃ e ∈ l, justifiesLocal accounts flag e := by
  induction l generalizing k st with
  | nil => cases h; exact .inl hl
  | cons e0 rest ih =>
    simp only [walkEntries] at h
    split at h
    · cases h
    · rename_i st1 hstep
      rcases ih h with h1 | ⟨e, hmem, hj⟩
      · rcases processEntry_has_local hstep h1 with h0 | hj
        · exact .inl h0
        · exact .inr ⟨e0, List.mem_cons_self e0 rest, hj⟩
      · exact .inr ⟨e, List.mem_cons_of_mem e0 hmem, hj⟩

lemma lastRid_none_all {l : List ICalendarEntry}
    (h : lastRid? l = none) : ∀ e ∈ l, isParsedRid e = none := by
  induction l with
  | nil => intro e he; cases he
  | cons e0 rest ih =>
    intro e he
    unfold lastRid? at h
    cases hrest : lastRid? rest with
    | some pr => rw [hrest] at h; cases h
    | none =>
      rw [hrest] at h
      cases hs : (isParsedRid e0).isSome with
      | true => rw [hs] at h; simp at h
      | false =>
        rcases List.mem_cons.mp he with rfl | hmem
        · exact Option.not_isSome_iff_eq_none.mp (by simp [hs])
        · exact ih hrest e hmem

lemma walkEntries_iid_pres_all {env : CalcardEnv} {accounts : List String}
    {flag : Bool} {l : List ICalendarEntry} {k : Nat} {st st' : EntryState}
    (hall : ∀ e ∈ l, isParsedRid e = none)
    (h : walkEntries env accounts flag l k st = .ok st') :
    st'.instance_id = st.instance_id := by
  induction l generalizing k st with
  | nil => cases h; rfl
  | cons e0 rest ih =>
    simp only [walkEntries] at h
    split at h
    · cases h
    · rename_i st1 hstep
      rw [ih (fun e he => hall e (List.mem_cons_of_mem e0 he)) h]
      rw [processEntry_iid_pres (hall e0 (List.mem_cons_self e0 rest)) hstep]

lemma walkEntries_lastRid {env : CalcardEnv} {accounts : List String}
    {flag : Bool} {l : List ICalendarEntry} {k : Nat} {st st' : EntryState}
    {i : Nat} {e : ICalendarEntry} {d : PartialDateTime}
    (h : walkEntries env accounts flag l k st = .ok st')
    (hlr : lastRid? l = some (i, e))
    (hd : isParsedRid e = some d) :
    st'.instance_id = .recurrence
      { entry_id := k + i,
        date := resolveTimestamp env d (lastTzid e.params),
        this_and_future := hasRange e.params } := by
  induction l generalizing k st i with
  | nil => cases hlr
  | cons e0 rest ih =>
    simp only [walkEntries] at h
    split at h
    · cases h
    · rename_i st1 hstep
      unfold lastRid? at hlr
      cases hrest : lastRid? rest with
      | some pr =>
        obtain ⟨i', e'⟩ := pr
        rw [hrest] at hlr
        cases hlr
        have hki : k + (i' + 1) = (k + 1) + i' := by omega
        rw [hki]
        exact ih h hrest
      | none =>
        rw [hrest] at hlr
        cases hs : (isParsedRid e0).isSome with
        | false => rw [hs] at hlr; simp at hlr
        | true =>
          rw [hs] at hlr
          simp only [if_pos] at hlr
          cases hlr
          have hrid := @processEntry_rid env accounts flag k e st d hd
          rw [hstep] at hrid
          cases hrid
          rw [walkEntries_iid_pres_all (lastRid_none_all hrest) h]
          simp

lemma checkObjectType_ok_elim {exp : Option ICalendarComponentType}
    {k : ICalendarComponentType} {expect' : Option ICalendarComponentType}
    (h : checkObjectType exp k = .ok expect') :
    expect' = some k ∧ (exp = none ∨ exp = some k) := by
  cases exp with
  | none =>
    simp only [checkObjectType] at h
    cases h
    exact ⟨rfl, .inl rfl⟩
  | some k0 =>
    simp only [checkObjectType] at h
    by_cases hek : k0 = k
    · subst hek
      rw [if_neg (fun hc => hc rfl)] at h
      cases h
      exact ⟨rfl, .inr rfl⟩
    · rw [if_pos hek] at h
      cases h

lemma processComp_elim {env : CalcardEnv} {accounts : List String}
    {flag : Bool} {ci : Nat} {comp : ICalendarComponent} {doc doc' : DocState}
    (h : processComp env accounts flag ci comp doc = .ok doc') :
    (comp.component_type.is_scheduling_object = false ∧ doc' = doc) ∨
    (comp.component_type.is_scheduling_object = true ∧
      ∃ expect' st,
        checkObjectType doc.expect_object_type comp.component_type = .ok expect' ∧
        walkEntries env accounts flag comp.entries 0
          { sched := doc.sched, snap := initSnap ci comp, instance_id := .main } =
          .ok st ∧
        hasKey doc.components st.instance_id = false ∧
        doc' = { sched := st.sched, expect_object_type := expect',
                 components := doc.components ++ [(st.instance_id, st.snap)] }) := by
  unfold processComp at h
  split at h
  · rename_i hsched
    right
    refine ⟨hsched, ?_⟩
    split at h
    · cases h
    · rename_i expect' hty
      split at h
      · cases h
      · rename_i st hwalk
        split at h
        · cases h
        · rename_i hkey
          cases h
          exact ⟨expect', st, hty, hwalk, Bool.not_eq_true _ ▸ eq_false_of_ne_true hkey, rfl⟩
  · rename_i hsched
    cases h
    exact .inl ⟨eq_false_of_ne_true hsched, rfl⟩

lemma processComp_organizer_pres {env : CalcardEnv} {accounts : List String}
    {flag : Bool} {ci : Nat} {comp : ICalendarComponent} {doc doc' : DocState}
    {o : Organizer}
    (h : processComp env accounts flag ci comp doc = .ok doc')
    (ho : doc.sched.organizer = some o) : doc'.sched.organizer = some o := by
  rcases processComp_elim h with ⟨-, rfl⟩ | ⟨-, expect', st, -, hwalk, -, rfl⟩
  · exact ho
  · exact walkEntries_organizer_pres hwalk ho

lemma processComp_uid_pres {env : CalcardEnv} {accounts : List String}
    {flag : Bool} {ci : Nat} {comp : ICalendarComponent} {doc doc' : DocState}
    {u : String}
    (h : processComp env accounts flag ci comp doc = .ok doc')
    (hu : doc.sched.uid = some u) : doc'.sched.uid = some u := by
  rcases processComp_elim h with ⟨-, rfl⟩ | ⟨-, expect', st, -, hwalk, -, rfl⟩
  · exact hu
  · exact walkEntries_uid_pres hwalk hu

lemma processComp_orgWF {env : CalcardEnv} {accounts : List String}
    {flag : Bool} {ci : Nat} {comp : ICalendarComponent} {doc doc' : DocState}
    (h : processComp env accounts flag ci comp doc = .ok doc')
    (hwf : OrgWF accounts doc.sched.organizer) :
    OrgWF accounts doc'.sched.organizer := by
  rcases processComp_elim h with ⟨-, rfl⟩ | ⟨-, expect', st, -, hwalk, -, rfl⟩
  · exact hwf
  · exact walkEntries_orgWF hwalk hwf

lemma processComp_uidNE {env : CalcardEnv} {accounts : List String}
    {flag : Bool} {ci : Nat} {comp : ICalendarComponent} {doc doc' : DocState}
    (h : processComp env accounts flag ci comp doc = .ok doc')
    (hwf : UidNE doc.sched.uid) : UidNE doc'.sched.uid := by
  rcases processComp_elim h with ⟨-, rfl⟩ | ⟨-, expect', st, -, hwalk, -, rfl⟩
  · exact hwf
  · exact walkEntries_uidNE hwalk hwf

lemma processComp_has_local {env : CalcardEnv} {accounts : List String}
    {flag : Bool} {ci : Nat} {comp : ICalendarComponent} {doc doc' : DocState}
    (h : processComp env accounts flag ci comp doc = .ok doc')
    (hl : doc'.sched.has_local_emails = true) :
    doc.sched.has_local_emails = true ∨
      (comp.component_type.is_scheduling_object = true ∧
        ∃ e ∈ comp.entries, justifiesLocal accounts flag e) := by
  rcases processComp_elim h with ⟨-, rfl⟩ | ⟨hsched, expect', st, -, hwalk, -, rfl⟩
  · exact .inl hl
  · rcases walkEntries_has_local hwalk hl with h1 | ⟨e, hmem, hj⟩
    · exact .inl h1
    · exact .inr ⟨hsched, e, hmem, hj⟩

lemma processComp_org_mem {env : CalcardEnv} {accounts : List String}
    {flag : Bool} {ci : Nat} {comp : ICalendarComponent} {doc doc' : DocState}
    {e : ICalendarEntry} {i : Nat} {p : Organizer}
    (h : processComp env accounts flag ci comp doc = .ok doc')
    (hsched : comp.component_type.is_scheduling_object = true)
    (he : e ∈ comp.entries)
    (hn : e.name = ICalendarProperty.organizer)
    (hp : organizerPart accounts i e = some p) :
    (p.is_server_scheduling || flag) = true ∧
      ∃ o, doc'.sched.organizer = some o ∧ o.email.email = p.email.email := by
  rcases processComp_elim h with ⟨hns, rfl⟩ | ⟨-, expect', st, -, hwalk, -, rfl⟩
  · rw [hsched] at hns; cases hns
  · exact walkEntries_org_mem hwalk he hn hp

lemma processComp_uid_mem {env : CalcardEnv} {accounts : List String}
    {flag : Bool} {ci : Nat} {comp : ICalendarComponent} {doc doc' : DocState}
    {e : ICalendarEntry} {u : String}
    (h : processComp env accounts flag ci comp doc = .ok doc')
    (hsched : comp.component_type.is_scheduling_object = true)
    (he : e ∈ comp.entries)
    (hd : declaresUid e = some u) : doc'.sched.uid = some u := by
  rcases processComp_elim h with ⟨hns, rfl⟩ | ⟨-, expect', st, -, hwalk, -, rfl⟩
  · rw [hsched] at hns; cases hns
  · exact walkEntries_uid_mem hwalk he hd

lemma processComp_expect_pres {env : CalcardEnv} {accounts : List String}
    {flag : Bool} {ci : Nat} {comp : ICalendarComponent} {doc doc' : DocState}
    {k : ICalendarComponentType}
    (h : processComp env accounts flag ci comp doc = .ok doc')
    (hk : doc.expect_object_type = some k) :
    doc'.expect_object_type = some k := by
  rcases processComp_elim h with ⟨-, rfl⟩ | ⟨-, expect', st, hty, -, -, rfl⟩
  · exact hk
  · obtain ⟨rfl, hexp⟩ := checkObjectType_ok_elim hty
    rcases hexp with hexp | hexp
    · rw [hk] at hexp; cases hexp
    · rw [hk] at hexp
      simpa using hexp.symm

lemma processComp_sets_expect {env : CalcardEnv} {accounts : List String}
    {flag : Bool} {ci : Nat} {comp : ICalendarComponent} {doc doc' : DocState}
    (h : processComp env accounts flag ci comp doc = .ok doc')
    (hsched : comp.component_type.is_scheduling_object = true) :
    doc'.expect_object_type = some comp.component_type := by
  rcases processComp_elim h with ⟨hns, rfl⟩ | ⟨-, expect', st, hty, -, -, rfl⟩
  · rw [hsched] at hns; cases hns
  · exact (checkObjectType_ok_elim hty).1

lemma processComp_nonsched {env : CalcardEnv} {accounts : List String}
    {flag : Bool} {ci : Nat} {comp : ICalendarComponent} {doc : DocState}
    (hns : comp.component_type.is_scheduling_object = false) :
    processComp env accounts flag ci comp doc = .ok doc := by
  simp [processComp, hns]

lemma hasKey_false_all {components : List (InstanceId × ItipSnapshot)}
    {iid : InstanceId} (h : hasKey components iid = false) :
    ∀ kv ∈ components, kv.1.keyEq iid = false := by
  intro kv hkv
  have := List.any_eq_false.mp h kv hkv
  simpa using this

lemma processComp_keysOk {env : CalcardEnv} {accounts : List String}
    {flag : Bool} {ci : Nat} {comp : ICalendarComponent} {doc doc' : DocState}
    (h : processComp env accounts flag ci comp doc = .ok doc')
    (hko : KeysOk doc.components) : KeysOk doc'.components := by
  rcases processComp_elim h with ⟨-, rfl⟩ | ⟨-, expect', st, -, -, hkey, rfl⟩
  · exact hko
  · unfold KeysOk at hko ⊢
    rw [List.pairwise_append]
    exact ⟨hko, List.pairwise_singleton _ _,
      fun a ha b hb => by
        rw [List.mem_singleton.mp hb]
        exact hasKey_false_all hkey a ha⟩

lemma processComp_type_err {env : CalcardEnv} {accounts : List String}
    {flag : Bool} {ci : Nat} {comp : ICalendarComponent} {doc : DocState}
    {k : ICalendarComponentType}
    (hsched : comp.component_type.is_scheduling_object = true)
    (hk : doc.expect_object_type = some k)
    (hne : comp.component_type ≠ k) :
    processComp env accounts flag ci comp doc = .error .multipleObjectTypes := by
  have hne' : k ≠ comp.component_type := Ne.symm hne
  simp [processComp, hsched, checkObjectType, hk, hne']

lemma processComp_collision {env : CalcardEnv} {accounts : List String}
    {flag : Bool} {ci : Nat} {comp : ICalendarComponent} {doc : DocState}
    {expect' : Option ICalendarComponentType} {st : EntryState}
    (hsched : comp.component_type.is_scheduling_object = true)
    (hty : checkObjectType doc.expect_object_type comp.component_type = .ok expect')
    (hwalk : walkEntries env accounts flag comp.entries 0
      { sched := doc.sched, snap := initSnap ci comp, instance_id := .main } = .ok st)
    (hkey : hasKey doc.components st.instance_id = true) :
    processComp env accounts flag ci comp doc = .error .multipleObjectInstances := by
  simp [processComp, hsched, hty, hwalk, hkey]

lemma walkComps_organizer_pres {env : CalcardEnv} {accounts : List String}
    {flag : Bool} {l : List ICalendarComponent} {n : Nat} {doc doc' : DocState}
    {o : Organizer}
    (h : walkComps env accounts flag l n doc = .ok doc')
    (ho : doc.sched.organizer = some o) : doc'.sched.organizer = some o := by
  induction l generalizing n doc with
  | nil => cases h; exact ho
  | cons c rest ih =>
    simp only [walkComps] at h
    split at h
    · cases h
    · rename_i d1 hstep
      exact ih h (processComp_organizer_pres hstep ho)

lemma walkComps_uid_pres {env : CalcardEnv} {accounts : List String}
    {flag : Bool} {l : List ICalendarComponent} {n : Nat} {doc doc' : DocState}
    {u : String}
    (h : walkComps env accounts flag l n doc = .ok doc')
    (hu : doc.sched.uid = some u) : doc'.sched.uid = some u := by
  induction l generalizing n doc with
  | nil => cases h; exact hu
  | cons c rest ih =>
    simp only [walkComps] at h
    split at h
    · cases h
    · rename_i d1 hstep
      exact ih h (processComp_uid_pres hstep hu)

lemma walkComps_orgWF {env : CalcardEnv} {accounts : List String}
    {flag : Bool} {l : List ICalendarComponent} {n : Nat} {doc doc' : DocState}
    (h : walkComps env accounts flag l n doc = .ok doc')
    (hwf : OrgWF accounts doc.sched.organizer) :
    OrgWF accounts doc'.sched.organizer := by
  induction l generalizing n doc with
  | nil => cases h; exact hwf
  | cons c rest ih =>
    simp only [walkComps] at h
    split at h
    · cases h
    · rename_i d1 hstep
      exact ih h (processComp_orgWF hstep hwf)

lemma walkComps_uidNE {env : CalcardEnv} {accounts : List String}
    {flag : Bool} {l : List ICalendarComponent} {n : Nat} {doc doc' : DocState}
    (h : walkComps env accounts flag l n doc = .ok doc')
    (hwf : UidNE doc.sched.uid) : UidNE doc'.sched.uid := by
  induction l generalizing n doc with
  | nil => cases h; exact hwf
  | cons c rest ih =>
    simp only [walkComps] at h
    split at h
    · cases h
    · rename_i d1 hstep
      exact ih h (processComp_uidNE hstep hwf)

lemma walkComps_keysOk {env : CalcardEnv} {accounts : List String}
    {flag : Bool} {l : List ICalendarComponent} {n : Nat} {doc doc' : DocState}
    (h : walkComps env accounts flag l n doc = .ok doc')
    (hko : KeysOk doc.components) : KeysOk doc'.components := by
  induction l generalizing n doc with
  | nil => cases h; exact hko
  | cons c rest ih =>
    simp only [walkComps] at h
    split at h
    · cases h
    · rename_i d1 hstep
      exact ih h (processComp_keysOk hstep hko)

lemma walkComps_has_local {env : CalcardEnv} {accounts : List String}
    {flag : Bool} {l : List ICalendarComponent} {n : Nat} {doc doc' : DocState}
    (h : walkComps env accounts flag l n doc = .ok doc')
    (hl : doc'.sched.has_local_emails = true) :
    doc.sched.has_local_emails = true ∨
      ∃ c ∈ l, c.component_type.is_scheduling_object = true ∧
        ∃ e ∈ c.entries, justifiesLocal accounts flag e := by
  induction l generalizing n doc with
  | nil => cases h; exact .inl hl
  | cons c rest ih =>
    simp only [walkComps] at h
    split at h
    · cases h
    · rename_i d1 hstep
      rcases ih h with h1 | ⟨c', hmem, hj⟩
      · rcases processComp_has_local hstep h1 with h0 | ⟨hsched, hj⟩
        · exact .inl h0
        · exact .inr ⟨c, List.mem_cons_self c rest, hsched, hj⟩
      · exact .inr ⟨c', List.mem_cons_of_mem c hmem, hj⟩

lemma walkComps_org_mem {env : CalcardEnv} {accounts : List String}
    {flag : Bool} {l : List ICalendarComponent} {n : Nat} {doc doc' : DocState}
    {c : ICalendarComponent} {e : ICalendarEntry} {i : Nat} {p : Organizer}
    (h : walkComps env accounts flag l n doc = .ok doc')
    (hc : c ∈ l)
    (hsched : c.component_type.is_scheduling_object = true)
    (he : e ∈ c.entries)
    (hn : e.name = ICalendarProperty.organizer)
    (hp : organizerPart accounts i e = some p) :
    (p.is_server_scheduling || flag) = true ∧
      ∃ o, doc'.sched.organizer = some o ∧ o.email.email = p.email.email := by
  induction l generalizing n doc with
  | nil => cases hc
  | cons c0 rest ih =>
    simp only [walkComps] at h
    split at h
    · cases h
    · rename_i d1 hstep
      rcases List.mem_cons.mp hc with rfl | hmem
      · obtain ⟨hg, o, ho, hoe⟩ := processComp_org_mem hstep hsched he hn hp
        exact ⟨hg, o, walkComps_organizer_pres h ho, hoe⟩
      · exact ih h hmem

lemma walkComps_uid_mem {env : CalcardEnv} {accounts : List String}
    {flag : Bool} {l : List ICalendarComponent} {n : Nat} {doc doc' : DocState}
    {c : ICalendarComponent} {e : ICalendarEntry} {u : String}
    (h : walkComps env accounts flag l n doc = .ok doc')
    (hc : c ∈ l)
    (hsched : c.component_type.is_scheduling_object = true)
    (he : e ∈ c.entries)
    (hd : declaresUid e = some u) : doc'.sched.uid = some u := by
  induction l generalizing n doc with
  | nil => cases hc
  | cons c0 rest ih =>
    simp only [walkComps] at h
    split at h
    · cases h
    · rename_i d1 hstep
      rcases List.mem_cons.mp hc with rfl | hmem
      · exact walkComps_uid_pres h (processComp_uid_mem hstep hsched he hd)
      · exact ih h hmem

lemma walkComps_expect_pres {env : CalcardEnv} {accounts : List String}
    {flag : Bool} {l : List ICalendarComponent} {n : Nat} {doc doc' : DocState}
    {k : ICalendarComponentType}
    (h : walkComps env accounts flag l n doc = .ok doc')
    (hk : doc.expect_object_type = some k) :
    doc'.expect_object_type = some k := by
  induction l generalizing n doc with
  | nil => cases h; exact hk
  | cons c rest ih =>
    simp only [walkComps] at h
    split at h
    · cases h
    · rename_i d1 hstep
      exact ih h (processComp_expect_pres hstep hk)

lemma walkComps_kind {env : CalcardEnv} {accounts : List String}
    {flag : Bool} {l : List ICalendarComponent} {n : Nat} {doc doc' : DocState}
    {c : ICalendarComponent}
    (h : walkComps env accounts flag l n doc = .ok doc')
    (hc : c ∈ l)
    (hsched : c.component_type.is_scheduling_object = true) :
    doc'.expect_object_type = some c.component_type := by
  induction l generalizing n doc with
  | nil => cases hc
  | cons c0 rest ih =>
    simp only [walkComps] at h
    split at h
    · cases h
    · rename_i d1 hstep
      rcases List.mem_cons.mp hc with rfl | hmem
      · exact walkComps_expect_pres h (processComp_sets_expect hstep hsched)
      · exact ih h hmem

lemma walkComps_append {env : CalcardEnv} {accounts : List String}
    {flag : Bool} (l1 l2 : List ICalendarComponent) (n : Nat) (doc : DocState) :
    walkComps env accounts flag (l1 ++ l2) n doc =
      match walkComps env accounts flag l1 n doc with
      | .error err => .error err
      | .ok d => walkComps env accounts flag l2 (n + l1.length) d := by
  induction l1 generalizing n doc with
  | nil => simp [walkComps]
  | cons c rest ih =>
    simp only [List.cons_append, walkComps]
    cases hstep : processComp env accounts flag n c doc with
    | error err => rfl
    | ok d1 =>
      show walkComps env accounts flag (rest ++ l2) (n + 1) d1 =
        match walkComps env accounts flag rest (n + 1) d1 with
        | .error err => .error err
        | .ok d => walkComps env accounts flag l2 (n + (rest.length + 1)) d
      rw [ih (n + 1) d1]
      have h2 : n + 1 + rest.length = n + (rest.length + 1) := by omega
      rw [h2]

lemma finalizeSnapshot_ok_elim {st : DocState} {r : ItipSnapshots}
    (h : finalizeSnapshot st = .ok r) :
    st.sched.has_local_emails = true ∧ st.sched.organizer = some r.organizer ∧
      st.sched.uid = some r.uid ∧ st.components = r.components := by
  unfold finalizeSnapshot at h
  split at h
  · rename_i hl
    split at h
    · cases h
    · rename_i org horg
      split at h
      · cases h
      · rename_i u hu
        cases h
        exact ⟨hl, horg, hu, rfl⟩
  · cases h

lemma itip_ok_elim {env : CalcardEnv} {ical : ICalendar}
    {accounts : List String} {flag : Bool} {r : ItipSnapshots}
    (h : itip_snapshot env ical accounts flag = .ok r) :
    hasOrganizerComp ical = true ∧
      ∃ st, walkComps env accounts flag ical.components 0 initDoc = .ok st ∧
        st.sched.has_local_emails = true ∧ st.sched.organizer = some r.organizer ∧
        st.sched.uid = some r.uid ∧ st.components = r.components := by
  unfold itip_snapshot at h
  split at h
  · cases h
  · rename_i hguard
    have hg : hasOrganizerComp ical = true := by
      revert hguard
      cases hasOrganizerComp ical <;> simp
    split at h
    · cases h
    · rename_i st hwalk
      exact ⟨hg, st, hwalk, finalizeSnapshot_ok_elim h⟩

lemma processEntry_org_has_local {env : CalcardEnv} {accounts : List String}
    {flag : Bool} {i : Nat} {e : ICalendarEntry} {st st' : EntryState}
    {p : Organizer}
    (hn : e.name = ICalendarProperty.organizer)
    (hp : organizerPart accounts i e = some p)
    (h : processEntry env accounts flag i e st = .ok st') :
    st'.sched.has_local_emails =
      (st.sched.has_local_emails || p.email.is_local) := by
  simp only [processEntry, hn, hp] at h
  split at h
  · cases h
  · split at h
    · split at h
      · cases h
      · cases h; rfl
    · cases h; rfl

lemma processEntry_att_sets {env : CalcardEnv} {accounts : List String}
    {flag : Bool} {i : Nat} {e : ICalendarEntry} {st : EntryState}
    {a : Attendee}
    (hn : e.name = ICalendarProperty.attendee)
    (hp : attendeePart accounts i e = some a) :
    processEntry env accounts flag i e st =
      .ok { st with
            sched :=
              { st.sched with
                has_local_emails := st.sched.has_local_emails ||
                  (a.email.is_local && (flag || a.is_server_scheduling)) },
            snap := { st.snap with attendees := insertAttendee st.snap.attendees a } } := by
  simp [processEntry, hn, hp]

/-! ### Claims -/

/-- C1: for every calendar in which no component is both a scheduling object
and carries an ORGANIZER property, `itip_snapshot` returns the error
`NoSchedulingInfo` (its early guard), regardless of the environment, account
address set, and `force_add_client_scheduling` flag. -/
theorem itip_c1_no_scheduling_info (env : CalcardEnv) (ical : ICalendar)
    (accounts : List String) (flag : Bool)
    (h : ∀ comp ∈ ical.components,
      comp.component_type.is_scheduling_object = true →
      ∀ e ∈ comp.entries, e.name ≠ ICalendarProperty.organizer) :
    itip_snapshot env ical accounts flag = .error .noSchedulingInfo := by
  have hg : hasOrganizerComp ical = false := by
    simp only [hasOrganizerComp, List.any_eq_false, Bool.and_eq_true,
      not_and, decide_eq_true_eq]
    intro comp hcomp hcs
    rw [Bool.not_eq_true, List.any_eq_false]
    intro e he
    simpa using h comp hcomp hcs e he
  simp [itip_snapshot, hg]

theorem itip_c1_no_scheduling_info_witness :
    itip_snapshot cexEnv c1cal ["a@x"] true = .error .noSchedulingInfo :=
  itip_c1_no_scheduling_info cexEnv c1cal ["a@x"] true (by decide)

/-- C5: once the component walk has completed without error, the post-walk
checks apply in source order: a false `has_local_emails` yields
`NotOrganizerNorAttendee` no matter whether organizer or UID are missing;
with local emails, a missing organizer yields `NoSchedulingInfo`; with local
emails and an organizer, a missing UID yields `MissingUid`; otherwise the
`ItipSnapshots` value is returned. -/
theorem itip_c5_post_walk_precedence (env : CalcardEnv) (ical : ICalendar)
    (accounts : List String) (flag : Bool) (st : DocState)
    (hguard : hasOrganizerComp ical = true)
    (hwalk : walkComps env accounts flag ical.components 0 initDoc = .ok st) :
    (st.sched.has_local_emails = false →
      itip_snapshot env ical accounts flag = .error .notOrganizerNorAttendee) ∧
    (st.sched.has_local_emails = true → st.sched.organizer = none →
      itip_snapshot env ical accounts flag = .error .noSchedulingInfo) ∧
    (∀ o, st.sched.has_local_emails = true → st.sched.organizer = some o →
      st.sched.uid = none →
      itip_snapshot env ical accounts flag = .error .missingUid) ∧
    (∀ o u, st.sched.has_local_emails = true → st.sched.organizer = some o →
      st.sched.uid = some u →
      itip_snapshot env ical accounts flag =
        .ok { organizer := o, uid := u, components := st.components }) := by
  have hit : itip_snapshot env ical accounts flag = finalizeSnapshot st := by
    simp [itip_snapshot, hguard, hwalk]
  refine ⟨?_, ?_, ?_, ?_⟩
  · intro hl
    rw [hit]
    simp [finalizeSnapshot, hl]
  · intro hl ho
    rw [hit]
    simp [finalizeSnapshot, hl, ho]
  · intro o hl ho hu
    rw [hit]
    simp [finalizeSnapshot, hl, ho, hu]
  · intro o u hl ho hu
    rw [hit]
    simp [finalizeSnapshot, hl, ho, hu]

theorem itip_c5_post_walk_precedence_witness :
    itip_snapshot cexEnv c5cal [] false = .error .notOrganizerNorAttendee :=
  (itip_c5_post_walk_precedence cexEnv c5cal [] false c5st rfl
    (by unfold c5st; rfl)).1 rfl

/-- C10: when both the zoned conversion (through the document resolver) and
the floating `to_timestamp` fail, the stored timestamp is the `i64` default
0; the projection of a partial date-time value always stores the resolved
timestamp; and RECURRENCE-ID or projected-property entries never make the
entry processor fail. -/
theorem itip_c10_timestamp_fallback (env : CalcardEnv)
    (accounts : List String) (flag : Bool) :
    (∀ date tz, env.to_date_time_with_tz date (env.resolve tz) = none →
      env.to_timestamp date = none → resolveTimestamp env date tz = 0) ∧
    (∀ tz date, projectValue env tz (.pdt date) =
      some (.dateTime { date := date, tz_id := tz,
                        timestamp := resolveTimestamp env date tz })) ∧
    (∀ i (e : ICalendarEntry) st,
      e.name = ICalendarProperty.recurrenceId ∨ isProjectedProp e.name = true →
      ∃ st', processEntry env accounts flag i e st = .ok st') :=
  ⟨fun date tz h1 h2 => by simp [resolveTimestamp, h1, h2],
   fun tz date => rfl,
   fun i e st h =>
     h.elim (fun hn => processEntry_rid_ok hn) (fun hp => processEntry_projected_ok hp)⟩

theorem itip_c10_timestamp_fallback_witness :
    resolveTimestamp cexEnv { id := 0 } none = 0 :=
  (itip_c10_timestamp_fallback cexEnv [] false).1 { id := 0 } none rfl rfl

/-- C8: inside one scheduling component, the last RECURRENCE-ID property
whose first value is a partial date-time determines the instance id: it is
`Recurrence` (never `Main`), its `entry_id` is that property's position, its
`this_and_future` records the presence of RANGE, and its date is the zoned
resolution through the document resolver under the last TZID parameter with
the floating fallback; moreover a RECURRENCE-ID entry can never make the
entry processor fail. -/
theorem itip_c8_rid_last_wins {env : CalcardEnv} {accounts : List String}
    {flag : Bool} {l : List ICalendarEntry} {k : Nat} {st st' : EntryState}
    {i : Nat} {e : ICalendarEntry} {d : PartialDateTime}
    (h : walkEntries env accounts flag l k st = .ok st')
    (hlr : lastRid? l = some (i, e))
    (hd : isParsedRid e = some d) :
    st'.instance_id = .recurrence
      { entry_id := k + i,
        date := resolveTimestamp env d (lastTzid e.params),
        this_and_future := hasRange e.params } ∧
    ∀ (st0 : EntryState) (j : Nat) (e2 : ICalendarEntry),
      e2.name = ICalendarProperty.recurrenceId →
      ∃ st1, processEntry env accounts flag j e2 st0 = .ok st1 :=
  ⟨walkEntries_lastRid h hlr hd,
   fun _ _ _ hn => processEntry_rid_ok hn⟩

theorem itip_c8_rid_last_wins_witness :
    walkEntries envW [] false [c8ridA, c8ridB] 0 c8st0 = .ok c8st1 ∧
    c8st1.instance_id =
      .recurrence { entry_id := 1, date := 42, this_and_future := true } :=
  ⟨by unfold c8st1; rfl,
   (@itip_c8_rid_last_wins envW [] false [c8ridA, c8ridB] 0 c8st0 c8st1 1 c8ridB
      { id := 5 } (by unfold c8st1; rfl) rfl rfl).1⟩

/-- C2 is false as stated: in `c2cal` the ORGANIZER parses as an email and a
SCHEDULE-AGENT=CLIENT parameter is present, yet `is_server_scheduling` is
true and, with `force_add_client_scheduling = false`, the snapshot is
accepted instead of failing with `OtherSchedulingAgent`. -/
theorem itip_c2_counterexample :
    (ICalendarParameter.scheduleAgent .client ∈
      (orgEntry "a@x" [.scheduleAgent .client, .scheduleAgent .server]).params) ∧
    (organizerPart ["a@x"] 0
      (orgEntry "a@x" [.scheduleAgent .client, .scheduleAgent .server])).isSome = true ∧
    (itip_snapshot cexEnv c2cal ["a@x"] false).toOption.map
      (fun r => r.organizer.is_server_scheduling) = some true :=
  ⟨by decide, rfl, rfl⟩

/-- C2 amended: `is_server_scheduling` equals whether the last SCHEDULE-AGENT
parameter (defaulting to SERVER) is SERVER; a client-scheduled parsed
organizer makes its entry fail with `OtherSchedulingAgent` when the flag is
false (so no accepted run with the flag false contains one), while with the
flag true the entry is accepted and stores the organizer as parsed. -/
theorem itip_c2_schedule_agent_amended (env : CalcardEnv)
    (accounts : List String) :
    (∀ i e p, organizerPart accounts i e = some p →
      p.is_server_scheduling =
        decide ((lastScheduleAgent e.params).getD .server =
          ICalendarScheduleAgentValue.server)) ∧
    (∀ i e p st, e.name = ICalendarProperty.organizer →
      organizerPart accounts i e = some p → p.is_server_scheduling = false →
      processEntry env accounts false i e st = .error .otherSchedulingAgent) ∧
    (∀ i e p st, e.name = ICalendarProperty.organizer →
      organizerPart accounts i e = some p → st.sched.organizer = none →
      processEntry env accounts true i e st =
        .ok { st with
              sched :=
                { st.sched with
                  organizer := some p,
                  has_local_emails := st.sched.has_local_emails || p.email.is_local } }) ∧
    (∀ ical r, itip_snapshot env ical accounts false = .ok r →
      ∀ comp ∈ ical.components, comp.component_type.is_scheduling_object = true →
        ∀ e ∈ comp.entries, e.name = ICalendarProperty.organizer →
          ∀ j p, organizerPart accounts j e = some p →
            p.is_server_scheduling = true) := by
  refine ⟨?_, ?_, ?_, ?_⟩
  · intro i e p hp
    unfold organizerPart at hp
    cases hv : (e.values.head?.bind ICalendarValue.asText).bind
        (fun v => Email.new v accounts) with
    | none => rw [hv] at hp; cases hp
    | some email =>
      rw [hv] at hp
      cases hp
      rw [orgFold_is_server]
      cases hla : lastScheduleAgent e.params <;> simp [hla]
  · intro i e p st hn hp hsrv
    exact processEntry_org_gate_err hn hp hsrv
  · intro i e p st hn hp ho
    exact processEntry_org_sets hn hp (by simp) ho
  · intro ical r hok comp hcomp hsched e he hn j p hp
    obtain ⟨-, st, hwalk, -, -, -, -⟩ := itip_ok_elim hok
    have hg := (walkComps_org_mem hwalk hcomp hsched he hn hp).1
    simpa using hg

theorem itip_c2_schedule_agent_amended_witness :
    organizerPart ["a@x"] 0 c2orgC = some c2pC ∧
    c2pC.is_server_scheduling =
      decide ((lastScheduleAgent c2orgC.params).getD .server =
        ICalendarScheduleAgentValue.server) ∧
    processEntry cexEnv ["a@x"] false 0 c2orgC c8st0 =
      .error .otherSchedulingAgent :=
  ⟨rfl,
   (itip_c2_schedule_agent_amended cexEnv ["a@x"]).1 0 c2orgC c2pC rfl,
   (itip_c2_schedule_agent_amended cexEnv ["a@x"]).2.1 0 c2orgC c2pC c8st0
     rfl rfl rfl⟩

/-- C3 is false as stated: `c3cal` contains two parsable ORGANIZER properties
with different normalized emails, yet extraction fails with
`OtherSchedulingAgent` (the agent gate runs before the duplicate-organizer
check), not with `MultipleOrganizer`. -/
theorem itip_c3_counterexample :
    (organizerPart ["a@x"] 0 (orgEntry "a@x" [])).map (fun p => p.email.email) =
      some "a@x" ∧
    (organizerPart ["a@x"] 2
      (orgEntry "b@x" [.scheduleAgent .client])).map (fun p => p.email.email) =
      some "b@x" ∧
    ItipError.otherSchedulingAgent ≠ ItipError.multipleOrganizer ∧
    itip_snapshot cexEnv c3cal ["a@x"] false = .error .otherSchedulingAgent :=
  ⟨rfl, rfl, by decide, rfl⟩

/-- C3 amended: a parsed ORGANIZER that passes the scheduling-agent gate and
differs in normalized email from the organizer already recorded makes its
entry fail with `MultipleOrganizer`; an already recorded organizer is never
replaced (the first is kept, later identical ones are discarded); and in any
accepted run every parsable ORGANIZER of a scheduling component has the
normalized email of the returned organizer. -/
theorem itip_c3_multiple_organizer_amended (env : CalcardEnv)
    (accounts : List String) (flag : Bool) :
    (∀ i e p st existing, e.name = ICalendarProperty.organizer →
      organizerPart accounts i e = some p →
      (p.is_server_scheduling || flag) = true →
      st.sched.organizer = some existing →
      existing.email.email ≠ p.email.email →
      processEntry env accounts flag i e st = .error .multipleOrganizer) ∧
    (∀ i e st st' existing,
      processEntry env accounts flag i e st = .ok st' →
      st.sched.organizer = some existing →
      st'.sched.organizer = some existing) ∧
    (∀ ical r, itip_snapshot env ical accounts flag = .ok r →
      ∀ comp ∈ ical.components, comp.component_type.is_scheduling_object = true →
        ∀ e ∈ comp.entries, e.name = ICalendarProperty.organizer →
          ∀ j p, organizerPart accounts j e = some p →
            p.email.email = r.organizer.email.email) := by
  refine ⟨?_, ?_, ?_⟩
  · intro i e p st existing hn hp hg ho hne
    exact processEntry_org_conflict hn hp hg ho hne
  · intro i e st st' existing h ho
    exact processEntry_organizer_pres h ho
  · intro ical r hok comp hcomp hsched e he hn j p hp
    obtain ⟨-, st, hwalk, -, horg, -, -⟩ := itip_ok_elim hok
    obtain ⟨-, o, ho, hoe⟩ := walkComps_org_mem hwalk hcomp hsched he hn hp
    rw [horg] at ho
    cases ho
    exact hoe.symm

theorem itip_c3_multiple_organizer_amended_witness :
    organizerPart ["a@x"] 2 (orgEntry "b@x" []) = some c3pB ∧
    processEntry cexEnv ["a@x"] false 2 (orgEntry "b@x" []) c3stA =
      .error .multipleOrganizer :=
  ⟨rfl,
   (itip_c3_multiple_organizer_amended cexEnv ["a@x"] false).1 2
     (orgEntry "b@x" []) c3pB c3stA
     (Organizer.mk 0 (Email.mk "a@x" true) true none)
     rfl rfl rfl rfl (by decide)⟩

/-- C4 is false as stated: the two scheduling components of `c4cal` declare
the different non-empty trimmed UIDs "u" and "v", yet extraction fails with
`OtherSchedulingAgent` (raised by the second ORGANIZER in document order
before the second UID is reached), not with `MultipleUid`. -/
theorem itip_c4_counterexample :
    declaresUid (uidEntry "u") = some "u" ∧
    declaresUid (uidEntry "v") = some "v" ∧
    ("u" : String) ≠ "v" ∧
    itip_snapshot cexEnv c4cal ["a@x"] false = .error .otherSchedulingAgent :=
  ⟨rfl, rfl, by decide, rfl⟩

/-- C4 amended: a UID whose first textual value trims to the empty string
leaves the state untouched; a declared UID differing from the recorded one
makes its entry fail with `MultipleUid`; and every accepted run returns a
non-empty UID equal to the trimmed UID of every declaring entry of every
scheduling component. -/
theorem itip_c4_uid_amended (env : CalcardEnv) (accounts : List String)
    (flag : Bool) :
    (∀ i e st v, e.name = ICalendarProperty.uid →
      e.values.head?.bind ICalendarValue.asText = some v → strTrim v = "" →
      processEntry env accounts flag i e st = .ok st) ∧
    (∀ i e st u w, declaresUid e = some u → st.sched.uid = some w → w ≠ u →
      processEntry env accounts flag i e st = .error .multipleUid) ∧
    (∀ ical r, itip_snapshot env ical accounts flag = .ok r →
      r.uid ≠ "" ∧
      ∀ comp ∈ ical.components, comp.component_type.is_scheduling_object = true →
        ∀ e ∈ comp.entries, ∀ u, declaresUid e = some u → u = r.uid) := by
  refine ⟨?_, ?_, ?_⟩
  · intro i e st v hn hv hemp
    exact processEntry_uid_empty hn hv hemp
  · intro i e st u w hd hw hne
    exact processEntry_uid_conflict hd hw hne
  · intro ical r hok
    obtain ⟨-, st, hwalk, -, -, huid, -⟩ := itip_ok_elim hok
    constructor
    · have hne := walkComps_uidNE hwalk (fun u hu => by cases hu)
      exact hne r.uid huid
    · intro comp hcomp hsched e he u hd
      have := walkComps_uid_mem hwalk hcomp hsched he hd
      rw [huid] at this
      cases this
      rfl

theorem itip_c4_uid_amended_witness :
    processEntry cexEnv [] false 0 (uidEntry " ") c4stU = .ok c4stU ∧
    processEntry cexEnv [] false 1 (uidEntry "v") c4stU = .error .multipleUid :=
  ⟨(itip_c4_uid_amended cexEnv [] false).1 0 (uidEntry " ") c4stU " " rfl rfl rfl,
   (itip_c4_uid_amended cexEnv [] false).2.1 1 (uidEntry "v") c4stU "v" "u"
     rfl rfl (by decide)⟩

/-- C6 is false as stated: the scheduling components of `c6cal` do not share
one kind (VEVENT and VTODO), yet extraction fails with `MultipleUid` (raised
inside the first component before the second component's kind is checked),
not with `MultipleObjectTypes`. -/
theorem itip_c6_counterexample :
    c6cal.components.map (fun c => c.component_type) =
      [ICalendarComponentType.vevent, ICalendarComponentType.vtodo] ∧
    c6cal.components.all (fun c => c.component_type.is_scheduling_object) = true ∧
    ItipError.multipleUid ≠ ItipError.multipleObjectTypes ∧
    itip_snapshot cexEnv c6cal ["a@x"] false = .error .multipleUid :=
  ⟨rfl, rfl, by decide, rfl⟩

/-- C6 amended: non-scheduling components never touch the document state;
when the walk of a prefix succeeds and records an expected kind, hitting a
scheduling component of another kind fails with `MultipleObjectTypes`
whatever that component's entries are (the check runs before them); and in
any accepted run all scheduling components share one kind. -/
theorem itip_c6_object_types_amended (env : CalcardEnv)
    (accounts : List String) (flag : Bool) :
    (∀ ci comp doc, comp.component_type.is_scheduling_object = false →
      processComp env accounts flag ci comp doc = .ok doc) ∧
    (∀ (l1 l2 : List ICalendarComponent) doc k kind,
      walkComps env accounts flag l1 0 initDoc = .ok doc →
      doc.expect_object_type = some k →
      kind.is_scheduling_object = true → kind ≠ k →
      ∀ es, walkComps env accounts flag
        (l1 ++ ({ component_type := kind, entries := es } : ICalendarComponent) :: l2)
        0 initDoc = .error .multipleObjectTypes) ∧
    (∀ ical r, itip_snapshot env ical accounts flag = .ok r →
      ∀ c1 ∈ ical.components, ∀ c2 ∈ ical.components,
        c1.component_type.is_scheduling_object = true →
        c2.component_type.is_scheduling_object = true →
        c1.component_type = c2.component_type) := by
  refine ⟨?_, ?_, ?_⟩
  · intro ci comp doc hns
    exact processComp_nonsched hns
  · intro l1 l2 doc k kind hwalk hk hsched hne es
    rw [walkComps_append, hwalk]
    simp only [walkComps]
    rw [processComp_type_err hsched hk hne]
  · intro ical r hok c1 hc1 c2 hc2 hs1 hs2
    obtain ⟨-, st, hwalk, -, -, -, -⟩ := itip_ok_elim hok
    have h1 := walkComps_kind hwalk hc1 hs1
    have h2 := walkComps_kind hwalk hc2 hs2
    rw [h1] at h2
    exact Option.some_injective _ h2

theorem itip_c6_object_types_amended_witness :
    walkComps cexEnv ["a@x"] false
      (c6l1 ++ ({ component_type := .vtodo, entries := [uidEntry "w"] } :
        ICalendarComponent) :: []) 0 initDoc = .error .multipleObjectTypes :=
  (itip_c6_object_types_amended cexEnv ["a@x"] false).2.1 c6l1 [] c6doc
    .vevent .vtodo (by unfold c6doc; rfl) rfl rfl (by decide) [uidEntry "w"]

/-- C7's second half is false as stated: in `c7cal` two scheduling
components (the first and third, which contain no RECURRENCE-ID at all)
resolve to the same `Main` key, yet extraction fails with `MultipleUid`
(raised by the differing UID of the second component), not with
`MultipleObjectInstances`. -/
theorem itip_c7_counterexample :
    c7cal.components.map (fun c => c.component_type) =
      [ICalendarComponentType.vevent, ICalendarComponentType.vevent,
       ICalendarComponentType.vevent] ∧
    c7cal.components.map (fun c => lastRid? c.entries) = [none, none, none] ∧
    ItipError.multipleUid ≠ ItipError.multipleObjectInstances ∧
    itip_snapshot cexEnv c7cal ["a@x"] false = .error .multipleUid :=
  ⟨rfl, rfl, by decide, rfl⟩

/-- C7 amended: in every accepted run the keys of the component map are
pairwise distinct under the key identity (`Main` at most once, recurrence
keys with distinct `(date, this_and_future)` pairs); and when a scheduling
component completes its entry walk with a key already present, the component
step fails with `MultipleObjectInstances`. -/
theorem itip_c7_instances_amended (env : CalcardEnv)
    (accounts : List String) (flag : Bool) :
    (∀ ical r, itip_snapshot env ical accounts flag = .ok r →
      r.components.Pairwise fun a b => a.1.keyEq b.1 = false) ∧
    (∀ ci comp doc expect' st,
      comp.component_type.is_scheduling_object = true →
      checkObjectType doc.expect_object_type comp.component_type = .ok expect' →
      walkEntries env accounts flag comp.entries 0
        { sched := doc.sched, snap := initSnap ci comp, instance_id := .main } =
        .ok st →
      hasKey doc.components st.instance_id = true →
      processComp env accounts flag ci comp doc =
        .error .multipleObjectInstances) := by
  constructor
  · intro ical r hok
    obtain ⟨-, st, hwalk, -, -, -, hcomps⟩ := itip_ok_elim hok
    have hko := walkComps_keysOk hwalk (List.Pairwise.nil)
    rw [hcomps] at hko
    exact hko
  · intro ci comp doc expect' st hsched hty hwalk hkey
    exact processComp_collision hsched hty hwalk hkey

theorem itip_c7_instances_amended_witness :
    processComp cexEnv ["a@x"] false 1 c7comp c7doc =
      .error .multipleObjectInstances :=
  (itip_c7_instances_amended cexEnv ["a@x"] false).2 1 c7comp c7doc
    (some .vevent) c7st rfl rfl (by unfold c7st; rfl) rfl

/-- C9 is false as stated: `c9cal` is accepted with
`force_add_client_scheduling = false` although the returned organizer is not
local and the only attendee in the returned snapshot is local but
client-scheduled — the claimed disjunction fails on the returned value. -/
theorem itip_c9_counterexample :
    (itip_snapshot cexEnv c9cal ["a@x"] false).toOption.map
      (fun r => (r.organizer.email.is_local,
        r.components.map (fun kv => kv.2.attendees.map
          (fun a => (a.email.is_local, a.is_server_scheduling))))) =
      some (false, [[(true, false)]]) := rfl

/-- C9 amended: in every accepted run, either the returned organizer's email
is local, or some ATTENDEE property of a scheduling component parses (before
deduplication) to a local attendee that is server-scheduled or covered by the
flag; a parsed ORGANIZER contributes its locality to `has_local_emails`
unconditionally, a parsed ATTENDEE only under the gating condition. -/
theorem itip_c9_local_gating_amended (env : CalcardEnv)
    (accounts : List String) (flag : Bool) :
    (∀ ical r, itip_snapshot env ical accounts flag = .ok r →
      r.organizer.email.is_local = true ∨
      ∃ c ∈ ical.components, c.component_type.is_scheduling_object = true ∧
        ∃ e ∈ c.entries, e.name = ICalendarProperty.attendee ∧
          ∃ i a, attendeePart accounts i e = some a ∧
            a.email.is_local = true ∧ (flag || a.is_server_scheduling) = true) ∧
    (∀ i e p st st', e.name = ICalendarProperty.organizer →
      organizerPart accounts i e = some p →
      processEntry env accounts flag i e st = .ok st' →
      st'.sched.has_local_emails =
        (st.sched.has_local_emails || p.email.is_local)) ∧
    (∀ i e a st, e.name = ICalendarProperty.attendee →
      attendeePart accounts i e = some a →
      processEntry env accounts flag i e st =
        .ok { st with
              sched :=
                { st.sched with
                  has_local_emails := st.sched.has_local_emails ||
                    (a.email.is_local && (flag || a.is_server_scheduling)) },
              snap := { st.snap with
                        attendees := insertAttendee st.snap.attendees a } }) := by
  refine ⟨?_, ?_, ?_⟩
  · intro ical r hok
    obtain ⟨-, st, hwalk, hl, horg, -, -⟩ := itip_ok_elim hok
    rcases walkComps_has_local hwalk hl with h0 | ⟨c, hc, hsched, e, he, hj⟩
    · simp [initDoc] at h0
    · rcases hj with ⟨hn, i, p, hp, hloc⟩ | ⟨hn, i, a, hp, hloc, hg⟩
      · left
        obtain ⟨-, o, ho, hoe⟩ := walkComps_org_mem hwalk hc hsched he hn hp
        rw [horg] at ho
        cases ho
        have hwf := walkComps_orgWF hwalk (fun o ho => by cases ho)
        calc r.organizer.email.is_local
            = accounts.contains r.organizer.email.email := hwf r.organizer horg
          _ = accounts.contains p.email.email := by rw [hoe]
          _ = p.email.is_local := (organizerPart_WF hp).symm
          _ = true := hloc
      · exact .inr ⟨c, hc, hsched, e, he, hn, i, a, hp, hloc, hg⟩
  · intro i e p st st' hn hp h
    exact processEntry_org_has_local hn hp h
  · intro i e a st hn hp
    exact processEntry_att_sets hn hp

theorem itip_c9_local_gating_amended_witness :
    attendeePart ["a@x"] 0 (attEntry "a@x" []) = some c9att ∧
    processEntry cexEnv ["a@x"] false 0 (attEntry "a@x" []) c8st0 =
      .ok { c8st0 with
            sched :=
              { c8st0.sched with
                has_local_emails := c8st0.sched.has_local_emails ||
                  (c9att.email.is_local && (false || c9att.is_server_scheduling)) },
            snap := { c8st0.snap with
                      attendees := insertAttendee c8st0.snap.attendees c9att } } :=
  ⟨rfl,
   (itip_c9_local_gating_amended cexEnv ["a@x"] false).2.2 0
     (attEntry "a@x" []) c9att c8st0 rfl rfl⟩

end MailServer
